import Mathlib

/-! # Agent wallboard API: status transitions, presence sync and dashboard summary

A shallow embedding of

* `src/controllers/agentController.js` (`createAgent`, `updateAgentStatus`,
  `getStatusSummary`), which works on the in-memory `agents` map, and
* `src/websocket/socketServer.js` (`agent-login`, `agent-logout`,
  `join-dashboard`, `disconnect`, `handleAgentDisconnect`,
  `sendDashboardUpdate`), which works on the `connectedClients` map and on the
  `AgentMongo` collection.

Every handler is embedded as a pure function from the state before to the state
after (plus the response or the events it emits).  A handler is run to
completion before the next one starts; `new Date()` is the parameter `now`.
Statuses, ids, agent codes and socket ids are JavaScript strings.  The store
operations succeed, so the `catch` branches are reached only where a handler
itself throws (`updateAgentStatus`, on a status that names a member of
`Object.prototype`).
-/

namespace Wallboard

/-! ## JavaScript maps and objects -/

/-- A JavaScript `Map` with string keys, or the own properties of a plain
object: the entries in insertion order.  A well-formed map holds every key
once. -/
abbrev JsMap (α : Type) := List (String × α)

namespace JsMap

variable {α : Type}

/-- Method `m.get(k)`: the value bound to `k`, `none` for `undefined`. -/
def get (m : JsMap α) (k : String) : Option α := List.lookup k m

/-- Method `m.has(k)`. -/
def has (m : JsMap α) (k : String) : Bool := (JsMap.get m k).isSome

/-- Method `m.set(k, v)`, or `obj[k] = v`: an existing key keeps its place and gets the
new value, a new key goes to the end. -/
def set (m : JsMap α) (k : String) (v : α) : JsMap α :=
  if JsMap.has m k then m.map (fun e => if e.1 = k then (k, v) else e)
  else m ++ [(k, v)]

/-- Method `m.delete(k)`. -/
def delete (m : JsMap α) (k : String) : JsMap α := m.filter (fun e => e.1 != k)

/-- The list `Array.from(m.values())`, or `Object.values(obj)`. -/
def values (m : JsMap α) : List α := m.map Prod.snd

/-- The list `Array.from(m.keys())`, or `Object.keys(obj)`. -/
def keys (m : JsMap α) : List String := m.map Prod.fst

end JsMap

/-! ## Plain objects

A plain object (`{}`, an object literal, the exported constants) is given by its
own properties, a `JsMap`; its prototype is `Object.prototype`.  Reading and
assigning a property go through the prototype. -/

/-- The property names a plain object inherits from `Object.prototype`. -/
def objectPrototypeNames : List String :=
  ["constructor", "__defineGetter__", "__defineSetter__", "hasOwnProperty",
   "__lookupGetter__", "__lookupSetter__", "isPrototypeOf", "propertyIsEnumerable",
   "toString", "valueOf", "__proto__", "toLocaleString"]

/-- What a property read `obj[k]` yields: the value of an own property, a member
of `Object.prototype` (a function, or the prototype itself for `__proto__`), or
`undefined`. -/
inductive PropertyRead (α : Type) where
  | own (v : α)
  | inherited
  | undefined
  deriving DecidableEq, Repr

/-- The read `obj[k]` of a plain object. -/
def JsObject.read {α : Type} (obj : JsMap α) (k : String) : PropertyRead α :=
  match JsMap.get obj k with
  | some v => .own v
  | none => if k ∈ objectPrototypeNames then .inherited else .undefined

/-- The value of `r || []` when `r` is an own array or `undefined`. -/
def PropertyRead.orEmpty {β : Type} : PropertyRead (List β) → List β
  | .own v => v
  | _ => []

/-- The assignment `obj[k] = v` of a number to an object built up from `{}`: the
name `__proto__` reaches the setter of `Object.prototype`, which ignores a value
that is no object, so no property is made; any other name is set as an own
property. -/
def JsObject.assign {α : Type} (obj : JsMap α) (k : String) (v : α) : JsMap α :=
  if k = "__proto__" then obj else JsMap.set obj k v

/-! ## IEEE-754 double arithmetic

`getStatusSummary` computes `Math.round((count / totalAgents) * 100)` on
JavaScript numbers, which are binary64 floating-point values.  A finite double
is represented by the rational it denotes.  Every operation rounds the exact
result to 53 significant bits, ties to even.  The exponent range is not
modelled: the quotients and products formed here lie between `2⁻⁵³` and `100`,
far from overflow and underflow. -/

/-- The integer nearest to `q`, a tie going to the even neighbour. -/
def roundTiesToEven (q : ℚ) : ℤ :=
  let f := ⌊q⌋
  if q - f < 1 / 2 then f
  else if 1 / 2 < q - f then f + 1
  else if f % 2 = 0 then f else f + 1

/-- The double nearest to the real number `q`: the significand `q / 2 ^ e`,
scaled into `[2⁵², 2⁵³)`, is rounded to an integer. -/
def toDouble (q : ℚ) : ℚ :=
  if q = 0 then 0
  else
    let e : ℤ := Int.log 2 |q| - 52
    (roundTiesToEven (q / 2 ^ e) : ℚ) * 2 ^ e

/-- JavaScript `x / y` on doubles (`y ≠ 0`). -/
def jsDiv (x y : ℚ) : ℚ := toDouble (x / y)

/-- JavaScript `x * y` on doubles. -/
def jsMul (x y : ℚ) : ℚ := toDouble (x * y)

/-- Function `Math.round(x)`: the integer nearest to `x`, a tie going up. -/
def mathRound (x : ℚ) : ℤ := ⌊x + 1 / 2⌋

/-! ## The in-memory agent model (`models/Agent`) -/

/-- The `lastStatusChange` field of an agent. -/
structure StatusChange where
  timestamp : Nat
  reason : Option String
  deriving DecidableEq, Repr

/-- Modelled from the spec: the class `Agent` of `models/Agent` is not among the
sources; the fields are those of the data model of section 3. -/
structure Agent where
  id : String
  agentCode : String
  name : String
  email : String
  department : String
  skills : List String
  status : String
  isOnline : Bool
  socketId : Option String
  lastStatusChange : StatusChange
  createdAt : Nat
  updatedAt : Nat
  deriving DecidableEq, Repr

/-- The body of `POST /api/agents`. -/
structure AgentData where
  agentCode : String
  name : String
  email : String
  department : String
  skills : List String
  status : String
  deriving DecidableEq, Repr

/-- Modelled from the spec: the identifier `new Agent(agentData)` gives a new
record; the constructor of `models/Agent` is not among the sources.  Section 3:
"id: opaque unique identifier".  The model draws an identifier that no stored
record has: a string longer than every identifier in use. -/
def generateId (agents : JsMap Agent) : String :=
  String.mk (List.replicate (((JsMap.keys agents).map String.length).foldr max 0 + 1) 'a')

/-- Modelled from the spec: the constructor `new Agent(agentData)` of
`models/Agent` is not among the sources.  Section 3: the record carries the
given `agentCode` and descriptive fields, and an `id` that is an "opaque unique
identifier"; the identifier the constructor generates is the parameter `id`. -/
def Agent.new (id : String) (now : Nat) (d : AgentData) : Agent :=
  { id := id, agentCode := d.agentCode, name := d.name, email := d.email,
    department := d.department, skills := d.skills, status := d.status,
    isOnline := false, socketId := none,
    lastStatusChange := { timestamp := now, reason := none },
    createdAt := now, updatedAt := now }

/-- Modelled from the spec: the method `agent.updateStatus(status, reason)` of
`models/Agent` is not among the sources.  Section 4.1: "On success: atomically
sets status, lastStatusChange={timestamp, reason}, updatedAt=now". -/
def Agent.updateStatus (a : Agent) (status : String) (reason : Option String)
    (now : Nat) : Agent :=
  { a with status := status,
           lastStatusChange := { timestamp := now, reason := reason },
           updatedAt := now }

/-- The constants of `utils/constants` read by the controller: the status
enumeration, the transition graph and the API messages.  The file is not among
the sources; they are parameters.  `AGENT_STATUS` and
`VALID_STATUS_TRANSITIONS` are plain objects, given by their own properties. -/
structure Constants where
  AGENT_STATUS : JsMap String
  VALID_STATUS_TRANSITIONS : JsMap (List String)
  AGENT_NOT_FOUND : String
  AGENT_ALREADY_EXISTS : String
  AGENT_CREATED : String
  INTERNAL_ERROR : String

/-- The result of `getStatusSummary`. -/
structure Summary where
  totalAgents : Nat
  statusCounts : JsMap Nat
  statusPercentages : JsMap ℤ
  lastUpdated : Nat
  deriving DecidableEq

/-- The data a controller passes to `sendSuccess`. -/
inductive ResponseData where
  | agent (a : Agent)
  | statusChange (id agentCode status : String) (lastStatusChange : StatusChange)
  | summary (s : Summary)
  deriving DecidableEq

/-- What a controller hands to `utils/apiResponse`: `sendSuccess(res, message,
data, statusCode)` (the helper's default code is `none`) or
`sendError(res, message, statusCode)`. -/
inductive Response where
  | sendSuccess (message : String) (data : ResponseData) (statusCode : Option Nat)
  | sendError (message : String) (statusCode : Nat)
  deriving DecidableEq

/-- The response is a `sendSuccess`. -/
def Response.isSuccess : Response → Bool
  | .sendSuccess _ _ _ => true
  | .sendError _ _ => false

/-! ## `controllers/agentController.js` -/

/-- Handler `createAgent` (lines 49-72). -/
def createAgent (K : Constants) (now : Nat) (agents : JsMap Agent)
    (agentData : AgentData) : Response × JsMap Agent :=
  match (JsMap.values agents).find? (fun a => a.agentCode = agentData.agentCode) with
  | some _ => (.sendError K.AGENT_ALREADY_EXISTS 400, agents)
  | none =>
    let newAgent := Agent.new (generateId agents) now agentData
    (.sendSuccess K.AGENT_CREATED (.agent newAgent) (some 201),
     JsMap.set agents newAgent.id newAgent)

/-- Handler `updateAgentStatus` (lines 102-143).  When the current status names
a member of `Object.prototype` that the graph has no own entry for, the read of
line 120 yields that member, which is truthy, so `|| []` keeps it; it has no
`includes`, the call of line 121 throws a `TypeError` and the `catch` of line 139
answers 500. -/
def updateAgentStatus (K : Constants) (now : Nat) (agents : JsMap Agent)
    (id : String) (status : String) (reason : Option String) :
    Response × JsMap Agent :=
  match JsMap.get agents id with
  | none => (.sendError K.AGENT_NOT_FOUND 404, agents)
  | some agent =>
    if ¬ status ∈ JsMap.values K.AGENT_STATUS then
      (.sendError ("Invalid status: " ++ status) 400, agents)
    else
      let currentStatus := agent.status
      let r := JsObject.read K.VALID_STATUS_TRANSITIONS currentStatus
      if r = .inherited then (.sendError K.INTERNAL_ERROR 500, agents)
      else
        let validNextStatuses := r.orEmpty
        if ¬ status ∈ validNextStatuses then
          (.sendError ("Cannot change from " ++ currentStatus ++ " to " ++ status
              ++ ". Valid transitions: " ++ ", ".intercalate validNextStatuses) 400,
           agents)
        else
          let agent' := agent.updateStatus status reason now
          (.sendSuccess ("Agent status updated to " ++ status)
              (.statusChange agent'.id agent'.agentCode agent'.status
                agent'.lastStatusChange) none,
           JsMap.set agents id agent')

/-- The percentage of line 178:
`totalAgents > 0 ? Math.round((count / totalAgents) * 100) : 0`. -/
def percentage (count totalAgents : Nat) : ℤ :=
  if totalAgents > 0 then mathRound (jsMul (jsDiv count totalAgents) 100) else 0

/-- Handler `getStatusSummary` (lines 166-193); the store is only read. -/
def getStatusSummary (K : Constants) (now : Nat) (agents : JsMap Agent) : Response :=
  let agentList := JsMap.values agents
  let totalAgents := agentList.length
  let statusCounts : JsMap Nat :=
    (JsMap.values K.AGENT_STATUS).foldl
      (fun acc status =>
        JsObject.assign acc status
          (agentList.filter (fun agent => agent.status = status)).length)
      []
  let statusPercentages : JsMap ℤ :=
    statusCounts.foldl
      (fun acc e => JsObject.assign acc e.1 (percentage e.2 totalAgents))
      []
  .sendSuccess "Status summary retrieved successfully"
    (.summary { totalAgents := totalAgents, statusCounts := statusCounts,
                statusPercentages := statusPercentages, lastUpdated := now })
    none

/-- The summary a `getStatusSummary` response carries. -/
def Response.summary? : Response → Option Summary
  | .sendSuccess _ (.summary s) _ => some s
  | _ => none

/-! ## `websocket/socketServer.js` -/

/-- Modelled from the spec: the Mongoose model `AgentMongo` of
`models/AgentMongo` is not among the sources.  A document of the collection
with the fields the socket server reads or writes (section 3: `agentCode`,
`status`, `isOnline`, `socketId`; `_id`, `loginTime` and `isActive` are named
in `socketServer.js`). -/
structure AgentDoc where
  _id : String
  agentCode : String
  status : String
  isOnline : Bool
  socketId : Option String
  loginTime : Option Nat
  isActive : Bool
  deriving DecidableEq, Repr

/-- Modelled from the spec: the store operation behind
`AgentMongo.findOneAndUpdate({ agentCode }, update)` (the model is not among
the sources).  Section 4.2: "looks up agent by code; if absent, reports failure
without side effects", otherwise the fields are written to that record.  The
first document with the code is updated and returned; `none` is `null`. -/
def findOneAndUpdate (db : List AgentDoc) (agentCode : String)
    (update : AgentDoc → AgentDoc) : Option AgentDoc × List AgentDoc :=
  match db with
  | [] => (none, [])
  | d :: rest =>
    if d.agentCode = agentCode then (some (update d), update d :: rest)
    else
      let r := findOneAndUpdate rest agentCode update
      (r.1, d :: r.2)

/-- The value `connectedClients` keeps for a socket id. -/
structure ClientInfo where
  agentCode : String
  agentName : String
  agentId : String
  loginTime : Nat
  deriving DecidableEq, Repr

/-- The payload of `agent-login`. -/
structure LoginData where
  agentCode : String
  agentName : String
  deriving DecidableEq, Repr

/-- Who an emitted event is addressed to. -/
inductive Target where
  -- `socket.emit`: the socket of the handler only
  | socket (socketId : String)
  -- `socket.broadcast.emit`: every connected socket but the one of the handler
  | broadcast (socketId : String)
  -- `io.emit`: every connected socket
  | all
  -- `io.to(room).emit`: the sockets that joined `room`
  | room (name : String)
  deriving DecidableEq, Repr

/-- The statistics of `sendDashboardUpdate`. -/
structure DashboardStats where
  totalAgents : Nat
  onlineAgents : Nat
  offlineAgents : ℤ
  statusBreakdown : JsMap Nat
  timestamp : Nat
  deriving DecidableEq, Repr

/-- The data of an emitted event. -/
inductive EventData where
  | presence (agentCode agentName : String) (timestamp : Nat)
  | loginSuccess (agent : AgentDoc) (message : String)
  | message (message : String)
  | stats (s : DashboardStats)
  | empty
  deriving DecidableEq, Repr

/-- One `emit` call. -/
structure Emit where
  target : Target
  event : String
  data : EventData
  deriving DecidableEq, Repr

/-- The state the socket server works on: its `connectedClients` map, the
`AgentMongo` collection, the room memberships `(socket id, room)` made by
`socket.join` and the events emitted so far, oldest first. -/
structure ServerState where
  connectedClients : JsMap ClientInfo
  db : List AgentDoc
  rooms : List (String × String)
  emitted : List Emit
  deriving DecidableEq, Repr

/-- Method `socket.join(room)`. -/
def join (rooms : List (String × String)) (socketId room : String) :
    List (String × String) :=
  if (socketId, room) ∈ rooms then rooms else rooms ++ [(socketId, room)]

/-- The `agent-login` handler (lines 35-81) of the socket `socketId`. -/
def agentLogin (now : Nat) (socketId : String) (data : LoginData)
    (s : ServerState) : ServerState :=
  let agentCode := data.agentCode
  let agentName := data.agentName
  let r := findOneAndUpdate s.db agentCode
    (fun d => { d with isOnline := true, socketId := some socketId,
                       loginTime := some now })
  match r.1 with
  | some agent =>
    { connectedClients := JsMap.set s.connectedClients socketId
        { agentCode := agentCode, agentName := agentName, agentId := agent._id,
          loginTime := now },
      db := r.2,
      rooms := join s.rooms socketId ("agent-" ++ agentCode),
      emitted := s.emitted ++
        [ { target := .broadcast socketId, event := "agent-online",
            data := .presence agentCode agentName now },
          { target := .socket socketId, event := "login-success",
            data := .loginSuccess agent
              "Successfully connected to Agent Wallboard System" } ] }
  | none =>
    { s with
      db := r.2,
      emitted := s.emitted ++
        [ { target := .socket socketId, event := "login-error",
            data := .message ("Agent " ++ agentCode ++ " not found") } ] }

/-- Method `handleAgentDisconnect(socketId)` (lines 112-136). -/
def handleAgentDisconnect (now : Nat) (socketId : String) (s : ServerState) :
    ServerState :=
  match JsMap.get s.connectedClients socketId with
  | none => s
  | some clientInfo =>
    let agentCode := clientInfo.agentCode
    let agentName := clientInfo.agentName
    let r := findOneAndUpdate s.db agentCode
      (fun d => { d with isOnline := false, socketId := none, status := "Offline" })
    { s with
      db := r.2,
      connectedClients := JsMap.delete s.connectedClients socketId,
      emitted := s.emitted ++
        [ { target := .all, event := "agent-offline",
            data := .presence agentCode agentName now } ] }

/-- The `agent-logout` handler (lines 84-92). -/
def agentLogout (now : Nat) (socketId : String) (s : ServerState) : ServerState :=
  if JsMap.has s.connectedClients socketId then handleAgentDisconnect now socketId s
  else s

/-- The `disconnect` handler (lines 102-105). -/
def disconnect (now : Nat) (socketId : String) (s : ServerState) : ServerState :=
  handleAgentDisconnect now socketId s

/-- The groups of `$group: { _id: '$status', count: { $sum: 1 } }`: one entry per
status among `docs`, with the number of documents in that status. -/
def groupByStatus (docs : List AgentDoc) : List (String × Nat) :=
  (docs.map (fun d => d.status)).dedup.map
    (fun st => (st, (docs.filter (fun d => d.status = st)).length))

/-- Method `sendDashboardUpdate()` (lines 138-163). -/
def sendDashboardUpdate (now : Nat) (s : ServerState) : ServerState :=
  let totalAgents := (s.db.filter (fun d => d.isActive)).length
  let onlineAgents := (s.db.filter (fun d => d.isActive && d.isOnline)).length
  let statusCounts := groupByStatus (s.db.filter (fun d => d.isActive && d.isOnline))
  let stats : DashboardStats :=
    { totalAgents := totalAgents,
      onlineAgents := onlineAgents,
      offlineAgents := (totalAgents : ℤ) - onlineAgents,
      statusBreakdown :=
        statusCounts.foldl (fun acc item => JsObject.assign acc item.1 item.2) [],
      timestamp := now }
  { s with
    emitted := s.emitted ++
      [ { target := .room "dashboard", event := "dashboardUpdate", data := .stats stats } ] }

/-- The `join-dashboard` handler (lines 95-99). -/
def joinDashboard (now : Nat) (socketId : String) (s : ServerState) : ServerState :=
  sendDashboardUpdate now { s with rooms := join s.rooms socketId "dashboard" }

/-- The events named `event` among `l`, in emission order. -/
def eventsNamed (event : String) (l : List Emit) : List Emit :=
  l.filter (fun e => e.event = event)

/-- The first document of the collection with the given code
(`AgentMongo.findOne({ agentCode })`). -/
def findOne (db : List AgentDoc) (agentCode : String) : Option AgentDoc :=
  db.find? (fun d => d.agentCode = agentCode)

/-! ## Sample data

The scenario of section 8: statuses `Available`, `Busy`, `Break`, `Offline`,
a transition graph in which `Offline` is not reachable from `Available`
directly and which lists a successor `Training` that is not enumerated, and one
agent `A001`. -/

/-- A status enumeration and transition graph for the scenarios. -/
def sampleConstants : Constants :=
  { AGENT_STATUS := [("AVAILABLE", "Available"), ("BUSY", "Busy"), ("BREAK", "Break"),
      ("OFFLINE", "Offline")],
    VALID_STATUS_TRANSITIONS := [("Available", ["Busy", "Break"]),
      ("Busy", ["Available", "Break", "Offline"]), ("Break", ["Available", "Offline"]),
      ("Offline", ["Available", "Training"])],
    AGENT_NOT_FOUND := "Agent not found",
    AGENT_ALREADY_EXISTS := "Agent code already exists",
    AGENT_CREATED := "Agent created successfully",
    INTERNAL_ERROR := "Internal server error" }

/-- The agent `A001`, offline. -/
def sampleAgent : Agent :=
  { id := "1", agentCode := "A001", name := "Ann", email := "ann@example.com",
    department := "Sales", skills := [], status := "Offline", isOnline := false,
    socketId := none, lastStatusChange := { timestamp := 0, reason := none },
    createdAt := 0, updatedAt := 0 }

/-- A store that holds `A001` only. -/
def sampleAgents : JsMap Agent := [("1", sampleAgent)]

/-- The agent codes of the stored agents, in store order. -/
def agentCodes (agents : JsMap Agent) : List String :=
  (JsMap.values agents).map (fun a => a.agentCode)

/-- A request body for a second agent, `A002`. -/
def sampleData : AgentData :=
  { agentCode := "A002", name := "Bob", email := "bob@example.com",
    department := "Support", skills := ["chat"], status := "Available" }

/-- A workflow with a status `constructor`: it is enumerated and listed as a
successor of `Available`, and the graph has no entry for it. -/
def inheritedNameConstants : Constants :=
  { sampleConstants with
    AGENT_STATUS := [("AVAILABLE", "Available"), ("CONSTRUCTOR", "constructor")],
    VALID_STATUS_TRANSITIONS := [("Available", ["constructor"])] }

/-- A store that holds `A001` only, in status `Available`. -/
def availableAgents : JsMap Agent := [("1", { sampleAgent with status := "Available" })]

/-- An enumeration of two statuses, `Available` and `__proto__`. -/
def protoConstants : Constants :=
  { sampleConstants with
    AGENT_STATUS := [("AVAILABLE", "Available"), ("PROTO", "__proto__")] }

/-- Two agents, one in each status of `protoConstants`. -/
def protoAgents : JsMap Agent :=
  [("1", { sampleAgent with status := "Available" }),
   ("2", { sampleAgent with id := "2", agentCode := "A002", status := "__proto__" })]

/-- A document of the collection for `A001`, not connected. -/
def sampleDoc : AgentDoc :=
  { _id := "64a0", agentCode := "A001", status := "Available", isOnline := false,
    socketId := none, loginTime := none, isActive := true }

/-- A socket server with `A001` in the collection and nobody connected. -/
def sampleServer : ServerState :=
  { connectedClients := [], db := [sampleDoc], rooms := [], emitted := [] }

/-- The login payload of `A001`. -/
def sampleLogin : LoginData := { agentCode := "A001", agentName := "Ann" }

/-- The sample server after `A001` logged in on socket `c1` and then on `c2`. -/
def sampleTwoLogins : ServerState :=
  agentLogin 2 "c2" sampleLogin (agentLogin 1 "c1" sampleLogin sampleServer)

/-- The state after `agent-login` on socket `c1` and then `agent-login` on socket
`c2`, both with the payload `data`. -/
def twoLogins (now1 now2 : Nat) (c1 c2 : String) (data : LoginData) (s : ServerState) :
    ServerState :=
  agentLogin now2 c2 data (agentLogin now1 c1 data s)

/-- The state after `agent-login` on socket `c` and then the `disconnect` of `c`. -/
def loginThenDisconnect (now1 now2 : Nat) (c : String) (data : LoginData)
    (s : ServerState) : ServerState :=
  disconnect now2 c (agentLogin now1 c data s)

/-- Forty agents with ids `1` to `40`: the first 23 are `Busy`, the other 17
`Available`. -/
def fortyAgents : JsMap Agent :=
  (List.range 40).map fun i =>
    (toString (i + 1),
     { sampleAgent with id := toString (i + 1), agentCode := "A" ++ toString (i + 1),
                        status := if i < 23 then "Busy" else "Available" })

/-! ## The summary in the words of the spec -/

/-- Following the words of the spec (section 4.4, "Percentage = round(count/total
× 100); if total=0, every percentage is 0"): the percentage in exact arithmetic,
a half rounded up. -/
def exactPercentage (count totalAgents : Nat) : ℤ :=
  if totalAgents > 0 then ⌊(count : ℚ) / totalAgents * 100 + 1 / 2⌋ else 0

/-- The number of stored agents whose status is `st`. -/
def countStatus (agents : JsMap Agent) (st : String) : Nat :=
  ((JsMap.values agents).filter (fun agent => agent.status = st)).length

/-- The distinct strings of `l`, each at the place of its first occurrence: the
order in which assignments `obj[k] = v` for the `k` of `l` create the keys of an
object. -/
def insertionOrder (l : List String) : List String :=
  l.foldl (fun ks k => if k ∈ ks then ks else ks ++ [k]) []

/-! ## Sequences of status requests -/

/-- One `PATCH /api/agents/:id/status` request, with the clock reading at its
arrival. -/
structure StatusRequest where
  now : Nat
  id : String
  status : String
  reason : Option String
  deriving DecidableEq, Repr

/-- The successive contents of the store while `updateAgentStatus` serves the
requests in turn: the store before the first request, then the store after
each request. -/
def storeTrace (K : Constants) (agents : JsMap Agent) : List StatusRequest → List (JsMap Agent)
  | [] => [agents]
  | r :: rs =>
    agents :: storeTrace K (updateAgentStatus K r.now agents r.id r.status r.reason).2 rs

/-- The allowed successors of status `s`: `VALID_STATUS_TRANSITIONS[s] || []`. -/
def successors (K : Constants) (s : String) : List String :=
  (JsMap.get K.VALID_STATUS_TRANSITIONS s).getD []

/-- Store `b` comes from store `a` by no change at all, or by moving the status
of one agent along an edge of the transition graph to an enumerated status. -/
def EdgeStep (K : Constants) (a b : JsMap Agent) : Prop :=
  b = a ∨
  ∃ id x t, JsMap.get a id = some x ∧ t ∈ JsMap.values K.AGENT_STATUS ∧
    t ∈ successors K x.status ∧
    (JsMap.get b id).map (fun y => y.status) = some t ∧
    ∀ id', id' ≠ id → JsMap.get b id' = JsMap.get a id'

end Wallboard

namespace Wallboard

/-! ## Facts about maps -/

theorem JsMap.get_cons {α : Type} (k k' : String) (v : α) (m : JsMap α) :
    JsMap.get ((k', v) :: m) k = if k = k' then some v else JsMap.get m k := by
  unfold JsMap.get
  rw [List.lookup_cons]
  by_cases h : k = k'
  · subst h; simp
  · have : (k == k') = false := by simpa using h
    simp [this, h]

theorem JsMap.get_append_of_none {α : Type} (m m' : JsMap α) (k : String)
    (h : JsMap.get m k = none) : JsMap.get (m ++ m') k = JsMap.get m' k := by
  induction m with
  | nil => rfl
  | cons e m ih =>
    obtain ⟨k', v⟩ := e
    rw [JsMap.get_cons] at h
    rw [List.cons_append, JsMap.get_cons]
    split_ifs at h ⊢ with hk
    exact ih h

theorem JsMap.get_map_replace {α : Type} (m : JsMap α) (k k' : String) (v : α) :
    JsMap.get (m.map (fun e => if e.1 = k then (k, v) else e)) k' =
      if k' = k then (JsMap.get m k).map (fun _ => v) else JsMap.get m k' := by
  induction m with
  | nil => simp [JsMap.get]
  | cons e m ih =>
    obtain ⟨a, b⟩ := e
    rw [List.map_cons]
    by_cases ha : a = k
    · subst ha
      simp only [if_true]
      simp only [JsMap.get_cons]
      by_cases hk : k' = a
      · subst hk; simp
      · simp only [hk, if_false]
        rw [ih]; simp [hk]
    · simp only [ha, if_false]
      rw [JsMap.get_cons, ih]
      by_cases hk : k' = k
      · subst hk
        rw [JsMap.get_cons]
        simp [Ne.symm ha]
      · simp only [JsMap.get_cons, hk, if_false]

theorem JsMap.get_set {α : Type} (m : JsMap α) (k k' : String) (v : α) :
    JsMap.get (JsMap.set m k v) k' = if k' = k then some v else JsMap.get m k' := by
  unfold JsMap.set JsMap.has
  cases hget : JsMap.get m k with
  | none =>
    simp only [Option.isSome_none, Bool.false_eq_true, if_false]
    by_cases hk : k' = k
    · subst hk
      rw [JsMap.get_append_of_none _ _ _ hget, JsMap.get_cons]; simp [JsMap.get]
    · simp only [hk, if_false]
      induction m with
      | nil => rw [List.nil_append, JsMap.get_cons]; simp [hk, JsMap.get]
      | cons e m ih =>
        obtain ⟨a, b⟩ := e
        rw [JsMap.get_cons] at hget
        rw [List.cons_append, JsMap.get_cons, JsMap.get_cons]
        split_ifs at hget ⊢ with h1
        · rfl
        · exact ih hget
  | some w =>
    simp only [Option.isSome_some, if_true]
    rw [JsMap.get_map_replace, hget]; simp

theorem JsMap.get_delete {α : Type} (m : JsMap α) (k k' : String) :
    JsMap.get (JsMap.delete m k) k' = if k' = k then none else JsMap.get m k' := by
  unfold JsMap.delete
  induction m with
  | nil => simp [JsMap.get]
  | cons e m ih =>
    obtain ⟨a, b⟩ := e
    by_cases ha : a = k
    · subst ha
      rw [List.filter_cons]
      simp only [bne_self_eq_false, Bool.false_eq_true, if_false]
      rw [ih, JsMap.get_cons]
      by_cases hk : k' = a <;> simp [hk]
    · rw [List.filter_cons]
      have : (a != k) = true := by simpa using ha
      simp only [this, if_true]
      rw [JsMap.get_cons, JsMap.get_cons, ih]
      by_cases hk : k' = k
      · subst hk; simp [Ne.symm ha]
      · simp [hk]

theorem JsMap.delete_of_get_none {α : Type} (m : JsMap α) (k : String)
    (h : JsMap.get m k = none) : JsMap.delete m k = m := by
  unfold JsMap.delete
  induction m with
  | nil => rfl
  | cons e m ih =>
    obtain ⟨a, b⟩ := e
    rw [JsMap.get_cons] at h
    split_ifs at h with hk
    rw [List.filter_cons]
    have : (a != k) = true := by simpa using Ne.symm hk
    simp only [this, if_true]
    rw [ih h]

/-! ## Reads of a plain object -/

theorem JsObject.read_eq_inherited_iff {α : Type} (obj : JsMap α) (k : String) :
    JsObject.read obj k = .inherited ↔
      JsMap.get obj k = none ∧ k ∈ objectPrototypeNames := by
  unfold JsObject.read
  cases h : JsMap.get obj k with
  | none =>
    by_cases hk : k ∈ objectPrototypeNames
    · simp [hk]
    · simp [hk]
  | some v => simp

theorem JsObject.orEmpty_read {β : Type} (obj : JsMap (List β)) (k : String)
    (h : JsObject.read obj k ≠ .inherited) :
    (JsObject.read obj k).orEmpty = (JsMap.get obj k).getD [] := by
  unfold JsObject.read at h ⊢
  cases hg : JsMap.get obj k with
  | none =>
    rw [hg] at h
    by_cases hk : k ∈ objectPrototypeNames
    · simp [hk] at h
    · simp [hk, PropertyRead.orEmpty]
  | some v => simp [PropertyRead.orEmpty]

/-! ## Status transitions (`updateAgentStatus`) -/

theorem updateAgentStatus_of_get_none (K : Constants) (now : Nat) (agents : JsMap Agent)
    (id t : String) (reason : Option String) (h : JsMap.get agents id = none) :
    updateAgentStatus K now agents id t reason = (.sendError K.AGENT_NOT_FOUND 404, agents) := by
  simp [updateAgentStatus, h]

theorem updateAgentStatus_of_not_enumerated (K : Constants) (now : Nat)
    (agents : JsMap Agent) (id t : String) (reason : Option String) (agent : Agent)
    (h : JsMap.get agents id = some agent) (ht : t ∉ JsMap.values K.AGENT_STATUS) :
    updateAgentStatus K now agents id t reason =
      (.sendError ("Invalid status: " ++ t) 400, agents) := by
  simp only [updateAgentStatus, h]
  rw [if_pos ht]

theorem updateAgentStatus_of_not_successor (K : Constants) (now : Nat)
    (agents : JsMap Agent) (id t : String) (reason : Option String) (agent : Agent)
    (h : JsMap.get agents id = some agent) (ht : t ∈ JsMap.values K.AGENT_STATUS)
    (hread : JsObject.read K.VALID_STATUS_TRANSITIONS agent.status ≠ .inherited)
    (hs : t ∉ successors K agent.status) :
    updateAgentStatus K now agents id t reason =
      (.sendError ("Cannot change from " ++ agent.status ++ " to " ++ t
          ++ ". Valid transitions: " ++ ", ".intercalate (successors K agent.status)) 400,
       agents) := by
  simp only [updateAgentStatus, h]
  rw [if_neg (not_not.mpr ht), if_neg hread, JsObject.orEmpty_read _ _ hread]
  unfold successors at hs
  rw [if_pos hs]
  rfl

theorem updateAgentStatus_of_inherited (K : Constants) (now : Nat)
    (agents : JsMap Agent) (id t : String) (reason : Option String) (agent : Agent)
    (h : JsMap.get agents id = some agent) (ht : t ∈ JsMap.values K.AGENT_STATUS)
    (hread : JsObject.read K.VALID_STATUS_TRANSITIONS agent.status = .inherited) :
    updateAgentStatus K now agents id t reason =
      (.sendError K.INTERNAL_ERROR 500, agents) := by
  simp only [updateAgentStatus, h]
  rw [if_neg (not_not.mpr ht), if_pos hread]

theorem successors_of_inherited (K : Constants) (st : String)
    (hread : JsObject.read K.VALID_STATUS_TRANSITIONS st = .inherited) :
    successors K st = [] := by
  unfold successors
  rw [((JsObject.read_eq_inherited_iff _ _).mp hread).1]
  rfl

theorem updateAgentStatus_of_edge (K : Constants) (now : Nat)
    (agents : JsMap Agent) (id t : String) (reason : Option String) (agent : Agent)
    (h : JsMap.get agents id = some agent) (ht : t ∈ JsMap.values K.AGENT_STATUS)
    (hs : t ∈ successors K agent.status) :
    updateAgentStatus K now agents id t reason =
      (.sendSuccess ("Agent status updated to " ++ t)
          (.statusChange agent.id agent.agentCode t { timestamp := now, reason := reason })
          none,
       JsMap.set agents id (agent.updateStatus t reason now)) := by
  have hread : JsObject.read K.VALID_STATUS_TRANSITIONS agent.status ≠ .inherited := by
    intro hr
    rw [successors_of_inherited K _ hr] at hs
    exact List.not_mem_nil _ hs
  simp only [updateAgentStatus, h]
  rw [if_neg (not_not.mpr ht), if_neg hread, JsObject.orEmpty_read _ _ hread]
  unfold successors at hs
  rw [if_neg (not_not.mpr hs)]
  rfl

theorem edgeStep_updateAgentStatus (K : Constants) (now : Nat) (agents : JsMap Agent)
    (id t : String) (reason : Option String) :
    EdgeStep K agents (updateAgentStatus K now agents id t reason).2 := by
  cases h : JsMap.get agents id with
  | none => left; rw [updateAgentStatus_of_get_none K now agents id t reason h]
  | some agent =>
    by_cases ht : t ∈ JsMap.values K.AGENT_STATUS
    · by_cases hs : t ∈ successors K agent.status
      · right
        rw [updateAgentStatus_of_edge K now agents id t reason agent h ht hs]
        refine ⟨id, agent, t, h, ht, hs, ?_, ?_⟩
        · simp [JsMap.get_set, Agent.updateStatus]
        · intro id' hne
          simp [JsMap.get_set, hne]
      · left
        by_cases hread : JsObject.read K.VALID_STATUS_TRANSITIONS agent.status = .inherited
        · rw [updateAgentStatus_of_inherited K now agents id t reason agent h ht hread]
        · rw [updateAgentStatus_of_not_successor K now agents id t reason agent h ht hread hs]
    · left; rw [updateAgentStatus_of_not_enumerated K now agents id t reason agent h ht]

theorem chain_storeTrace (K : Constants) (reqs : List StatusRequest) :
    ∀ agents : JsMap Agent, List.Chain' (EdgeStep K) (storeTrace K agents reqs) := by
  induction reqs with
  | nil => intro agents; simp [storeTrace]
  | cons r rs ih =>
    intro agents
    rw [storeTrace]
    refine List.Chain'.cons' (ih _) ?_
    intro b hb
    have hhead : b = (updateAgentStatus K r.now agents r.id r.status r.reason).2 := by
      cases rs with
      | nil => simpa [storeTrace] using hb.symm
      | cons r' rs' => simpa [storeTrace] using hb.symm
    rw [hhead]
    exact edgeStep_updateAgentStatus K r.now agents r.id r.status r.reason

/-- C1: for an id bound to an agent with current status `s`, `updateAgentStatus`
succeeds exactly when the target `t` is in the status enumeration and listed in
`VALID_STATUS_TRANSITIONS[s]` (no entry: no successors; `s → s` needs `s` listed
under `s`).  On success the agent's status is `t` and every other record is
untouched; on failure the store is unchanged.  Over any sequence of requests,
from any store, each step changes nothing or moves one agent along an edge of
the graph. -/
theorem updateAgentStatus_follows_graph (K : Constants) (now : Nat)
    (agents : JsMap Agent) (id t : String) (reason : Option String) (agent : Agent)
    (h : JsMap.get agents id = some agent) :
    ((updateAgentStatus K now agents id t reason).1.isSuccess = true ↔
        t ∈ JsMap.values K.AGENT_STATUS ∧
        t ∈ (JsMap.get K.VALID_STATUS_TRANSITIONS agent.status).getD []) ∧
    ((updateAgentStatus K now agents id t reason).1.isSuccess = true →
        JsMap.get (updateAgentStatus K now agents id t reason).2 id =
            some (agent.updateStatus t reason now) ∧
        (agent.updateStatus t reason now).status = t ∧
        ∀ id', id' ≠ id →
          JsMap.get (updateAgentStatus K now agents id t reason).2 id' =
            JsMap.get agents id') ∧
    ((updateAgentStatus K now agents id t reason).1.isSuccess = false →
        (updateAgentStatus K now agents id t reason).2 = agents) ∧
    ∀ (store : JsMap Agent) (reqs : List StatusRequest),
      List.Chain' (EdgeStep K) (storeTrace K store reqs) := by
  have key : (updateAgentStatus K now agents id t reason).1.isSuccess = true ↔
      t ∈ JsMap.values K.AGENT_STATUS ∧ t ∈ successors K agent.status := by
    by_cases ht : t ∈ JsMap.values K.AGENT_STATUS
    · by_cases hs : t ∈ successors K agent.status
      · rw [updateAgentStatus_of_edge K now agents id t reason agent h ht hs]
        simp [Response.isSuccess, ht, hs]
      · by_cases hread :
            JsObject.read K.VALID_STATUS_TRANSITIONS agent.status = .inherited
        · rw [updateAgentStatus_of_inherited K now agents id t reason agent h ht hread]
          simp [Response.isSuccess, hs]
        · rw [updateAgentStatus_of_not_successor K now agents id t reason agent h ht hread hs]
          simp [Response.isSuccess, hs]
    · rw [updateAgentStatus_of_not_enumerated K now agents id t reason agent h ht]
      simp [Response.isSuccess, ht]
  refine ⟨key, ?_, ?_, fun store reqs => chain_storeTrace K reqs store⟩
  · intro hsucc
    obtain ⟨ht, hs⟩ := key.mp hsucc
    rw [updateAgentStatus_of_edge K now agents id t reason agent h ht hs]
    refine ⟨by simp [JsMap.get_set], rfl, ?_⟩
    intro id' hne
    simp [JsMap.get_set, hne]
  · intro hfail
    by_cases ht : t ∈ JsMap.values K.AGENT_STATUS
    · by_cases hs : t ∈ successors K agent.status
      · have := key.mpr ⟨ht, hs⟩
        rw [this] at hfail; cases hfail
      · by_cases hread :
            JsObject.read K.VALID_STATUS_TRANSITIONS agent.status = .inherited
        · rw [updateAgentStatus_of_inherited K now agents id t reason agent h ht hread]
        · rw [updateAgentStatus_of_not_successor K now agents id t reason agent h ht hread hs]
    · rw [updateAgentStatus_of_not_enumerated K now agents id t reason agent h ht]

/-- The failures of `updateAgentStatus` in their order, each leaving the store as
it was: an unknown id gives 404 `AGENT_NOT_FOUND` whatever the target; a known id
with a target outside the enumeration gives 400 "Invalid status" whatever the
transition graph lists; a known id with an enumerated target that is no successor
of the current status gives 400 with a message that ends in the successors of the
current status, joined by ", ", unless the current status names a member of
`Object.prototype` that the graph has no own entry for, where the answer is 500
`INTERNAL_ERROR`. -/
theorem updateAgentStatus_failures (K : Constants) (now : Nat)
    (agents : JsMap Agent) (id t : String) (reason : Option String) :
    (JsMap.get agents id = none →
      updateAgentStatus K now agents id t reason =
        (.sendError K.AGENT_NOT_FOUND 404, agents)) ∧
    (∀ agent, JsMap.get agents id = some agent → t ∉ JsMap.values K.AGENT_STATUS →
      updateAgentStatus K now agents id t reason =
        (.sendError ("Invalid status: " ++ t) 400, agents)) ∧
    (∀ agent, JsMap.get agents id = some agent → t ∈ JsMap.values K.AGENT_STATUS →
      ¬ (JsMap.get K.VALID_STATUS_TRANSITIONS agent.status = none ∧
          agent.status ∈ objectPrototypeNames) →
      t ∉ (JsMap.get K.VALID_STATUS_TRANSITIONS agent.status).getD [] →
      updateAgentStatus K now agents id t reason =
        (.sendError ("Cannot change from " ++ agent.status ++ " to " ++ t
            ++ ". Valid transitions: "
            ++ ", ".intercalate ((JsMap.get K.VALID_STATUS_TRANSITIONS agent.status).getD []))
          400, agents)) ∧
    (∀ agent, JsMap.get agents id = some agent → t ∈ JsMap.values K.AGENT_STATUS →
      JsMap.get K.VALID_STATUS_TRANSITIONS agent.status = none →
      agent.status ∈ objectPrototypeNames →
      updateAgentStatus K now agents id t reason =
        (.sendError K.INTERNAL_ERROR 500, agents)) :=
  ⟨updateAgentStatus_of_get_none K now agents id t reason,
   fun agent h ht => updateAgentStatus_of_not_enumerated K now agents id t reason agent h ht,
   fun agent h ht hn hs =>
    updateAgentStatus_of_not_successor K now agents id t reason agent h ht
      (fun hr => hn ((JsObject.read_eq_inherited_iff _ _).mp hr)) hs,
   fun agent h ht hg hm =>
    updateAgentStatus_of_inherited K now agents id t reason agent h ht
      ((JsObject.read_eq_inherited_iff _ _).mpr ⟨hg, hm⟩)⟩

/-- C8 fails on the code: in a workflow whose enumeration holds the status
`constructor`, listed under `Available` and with no entry of its own in the
graph, agent `1` moves from `Available` to `constructor`; the request to move on
to `Available`, which is enumerated and is no successor of `constructor` (there is
none), is then answered with 500 `INTERNAL_ERROR` and not with the 400 that lists
the successors. -/
theorem updateAgentStatus_inherited_name_status :
    updateAgentStatus inheritedNameConstants 5 availableAgents "1" "constructor" none =
      (.sendSuccess "Agent status updated to constructor"
          (.statusChange "1" "A001" "constructor" { timestamp := 5, reason := none }) none,
       [("1", { sampleAgent with status := "constructor",
                                 lastStatusChange := { timestamp := 5, reason := none },
                                 updatedAt := 5 })]) ∧
    "Available" ∈ JsMap.values inheritedNameConstants.AGENT_STATUS ∧
    successors inheritedNameConstants "constructor" = [] ∧
    updateAgentStatus inheritedNameConstants 9
        (updateAgentStatus inheritedNameConstants 5 availableAgents "1" "constructor" none).2
        "1" "Available" none =
      (.sendError "Internal server error" 500,
       (updateAgentStatus inheritedNameConstants 5 availableAgents "1" "constructor" none).2) := by
  decide

/-- Witness of C1 (the scenario of section 8): `A001` is `Offline`; the move to
`Available` succeeds and sets the status; from `Available` the move to
`Offline`, which the graph does not list, fails and the store stays as it is. -/
theorem updateAgentStatus_follows_graph_witness :
    (updateAgentStatus sampleConstants 5 sampleAgents "1" "Available" none).1.isSuccess = true ∧
    JsMap.get (updateAgentStatus sampleConstants 5 sampleAgents "1" "Available" none).2 "1" =
      some (sampleAgent.updateStatus "Available" none 5) ∧
    (updateAgentStatus sampleConstants 9
        [("1", sampleAgent.updateStatus "Available" none 5)] "1" "Offline" none).2 =
      [("1", sampleAgent.updateStatus "Available" none 5)] :=
  ⟨(updateAgentStatus_follows_graph sampleConstants 5 sampleAgents "1" "Available" none
      sampleAgent rfl).1.mpr (by decide),
   ((updateAgentStatus_follows_graph sampleConstants 5 sampleAgents "1" "Available" none
      sampleAgent rfl).2.1 (by decide)).1,
   (updateAgentStatus_follows_graph sampleConstants 9
      [("1", sampleAgent.updateStatus "Available" none 5)] "1" "Offline" none
      (sampleAgent.updateStatus "Available" none 5) rfl).2.2.1 (by decide)⟩

/-- The three ordered failures at the sample store: an unknown id is reported
before the status is looked at; `Training` is outside the enumeration, although
the graph lists it under `Offline`; `Offline` is enumerated but no successor of
`Offline`, and the message lists the two successors. -/
theorem updateAgentStatus_failures_sample :
    updateAgentStatus sampleConstants 5 sampleAgents "2" "Ghost" none =
      (.sendError "Agent not found" 404, sampleAgents) ∧
    updateAgentStatus sampleConstants 5 sampleAgents "1" "Training" none =
      (.sendError "Invalid status: Training" 400, sampleAgents) ∧
    updateAgentStatus sampleConstants 5 sampleAgents "1" "Offline" none =
      (.sendError
        "Cannot change from Offline to Offline. Valid transitions: Available, Training" 400,
        sampleAgents) :=
  ⟨(updateAgentStatus_failures sampleConstants 5 sampleAgents "2" "Ghost" none).1 rfl,
   (updateAgentStatus_failures sampleConstants 5 sampleAgents "1" "Training" none).2.1
      sampleAgent rfl (by decide),
   (updateAgentStatus_failures sampleConstants 5 sampleAgents "1" "Offline" none).2.2.1
      sampleAgent rfl (by decide) (by decide) (by decide)⟩

/-! ## Agent creation (`createAgent`) -/

theorem JsMap.get_eq_none_of_not_mem_keys {α : Type} (m : JsMap α) (k : String)
    (h : k ∉ JsMap.keys m) : JsMap.get m k = none := by
  induction m with
  | nil => rfl
  | cons e m ih =>
    obtain ⟨a, b⟩ := e
    unfold JsMap.keys at h ih
    rw [List.map_cons, List.mem_cons, not_or] at h
    rw [JsMap.get_cons, if_neg h.1]
    exact ih h.2

theorem le_foldr_max (l : List Nat) (n : Nat) (h : n ∈ l) : n ≤ l.foldr max 0 := by
  induction l with
  | nil => simp at h
  | cons a l ih =>
    rw [List.foldr_cons]
    rcases List.mem_cons.mp h with rfl | h'
    · exact le_max_left _ _
    · exact le_trans (ih h') (le_max_right _ _)

/-- The identifier of the model is in use by no stored record. -/
theorem generateId_fresh (agents : JsMap Agent) :
    JsMap.get agents (generateId agents) = none := by
  apply JsMap.get_eq_none_of_not_mem_keys
  intro hmem
  have hle := le_foldr_max ((JsMap.keys agents).map String.length)
    (generateId agents).length (List.mem_map_of_mem String.length hmem)
  have hlen : (generateId agents).length =
      ((JsMap.keys agents).map String.length).foldr max 0 + 1 := by
    unfold generateId
    rw [String.length_mk, List.length_replicate]
  omega

theorem createAgent_of_duplicate (K : Constants) (now : Nat)
    (agents : JsMap Agent) (d : AgentData)
    (h : ∃ a ∈ JsMap.values agents, a.agentCode = d.agentCode) :
    createAgent K now agents d = (.sendError K.AGENT_ALREADY_EXISTS 400, agents) := by
  unfold createAgent
  cases hf : (JsMap.values agents).find? (fun a => a.agentCode = d.agentCode) with
  | some a => rfl
  | none =>
    obtain ⟨a, ha, hc⟩ := h
    have := List.find?_eq_none.mp hf a ha
    simp [hc] at this

theorem createAgent_of_new_code (K : Constants) (now : Nat)
    (agents : JsMap Agent) (d : AgentData)
    (h : ∀ a ∈ JsMap.values agents, a.agentCode ≠ d.agentCode) :
    createAgent K now agents d =
      (.sendSuccess K.AGENT_CREATED (.agent (Agent.new (generateId agents) now d)) (some 201),
       agents ++ [(generateId agents, Agent.new (generateId agents) now d)]) := by
  unfold createAgent
  cases hf : (JsMap.values agents).find? (fun a => a.agentCode = d.agentCode) with
  | some a =>
    have hm := List.mem_of_find?_eq_some hf
    have hp := List.find?_some hf
    exact absurd (by simpa using hp) (h a hm)
  | none =>
    simp only [Agent.new, JsMap.set, JsMap.has, generateId_fresh agents, Option.isSome_none,
      Bool.false_eq_true, if_false]

/-- C4: in a store whose agent codes are pairwise distinct, `createAgent` with a
code that some stored agent has fails with 400 `AGENT_ALREADY_EXISTS` and leaves
the store as it is; with a code no stored agent has, it appends exactly one
record, which carries the code of the body, under an id that no stored record
has, and every existing entry stays.  Either way the agent codes are pairwise
distinct afterwards. -/
theorem createAgent_keeps_codes_distinct (K : Constants) (now : Nat)
    (agents : JsMap Agent) (d : AgentData)
    (hdist : (agentCodes agents).Nodup) :
    ((∃ a ∈ JsMap.values agents, a.agentCode = d.agentCode) →
      createAgent K now agents d =
        (.sendError K.AGENT_ALREADY_EXISTS 400, agents)) ∧
    ((∀ a ∈ JsMap.values agents, a.agentCode ≠ d.agentCode) →
      ∃ id, JsMap.get agents id = none ∧
        (createAgent K now agents d).1 =
          .sendSuccess K.AGENT_CREATED (.agent (Agent.new id now d)) (some 201) ∧
        (createAgent K now agents d).2 = agents ++ [(id, Agent.new id now d)] ∧
        (Agent.new id now d).agentCode = d.agentCode ∧
        (Agent.new id now d).id = id) ∧
    (agentCodes (createAgent K now agents d).2).Nodup := by
  refine ⟨createAgent_of_duplicate K now agents d, ?_, ?_⟩
  · intro h
    rw [createAgent_of_new_code K now agents d h]
    exact ⟨generateId agents, generateId_fresh agents, rfl, rfl, rfl, rfl⟩
  · by_cases h : ∃ a ∈ JsMap.values agents, a.agentCode = d.agentCode
    · rw [createAgent_of_duplicate K now agents d h]
      exact hdist
    · have h' : ∀ a ∈ JsMap.values agents, a.agentCode ≠ d.agentCode := by
        intro a ha hc
        exact h ⟨a, ha, hc⟩
      rw [createAgent_of_new_code K now agents d h']
      have hsplit : agentCodes (agents ++ [(generateId agents,
            Agent.new (generateId agents) now d)]) =
          agentCodes agents ++ [d.agentCode] := by
        simp [agentCodes, JsMap.values, Agent.new]
      rw [hsplit, List.nodup_append]
      refine ⟨hdist, List.nodup_singleton _, ?_⟩
      intro c hc hc'
      rw [List.mem_singleton] at hc'
      unfold agentCodes at hc
      rw [List.mem_map] at hc
      obtain ⟨a, ha, rfl⟩ := hc
      exact h' a ha hc'

/-- Witness of C4: `A002` is added to the store that holds `A001` under a new id,
and `A001` stays; a second `A001` is refused and the store stays as it is. -/
theorem createAgent_keeps_codes_distinct_witness :
    (∃ id, JsMap.get sampleAgents id = none ∧
      (createAgent sampleConstants 7 sampleAgents sampleData).1 =
        .sendSuccess "Agent created successfully" (.agent (Agent.new id 7 sampleData))
          (some 201) ∧
      (createAgent sampleConstants 7 sampleAgents sampleData).2 =
        [("1", sampleAgent), (id, Agent.new id 7 sampleData)] ∧
      (Agent.new id 7 sampleData).agentCode = "A002" ∧
      (Agent.new id 7 sampleData).id = id) ∧
    createAgent sampleConstants 7 sampleAgents { sampleData with agentCode := "A001" } =
      (.sendError "Agent code already exists" 400, sampleAgents) ∧
    (agentCodes (createAgent sampleConstants 7 sampleAgents sampleData).2).Nodup :=
  ⟨(createAgent_keeps_codes_distinct sampleConstants 7 sampleAgents sampleData
      (by decide)).2.1 (by decide),
   (createAgent_keeps_codes_distinct sampleConstants 7 sampleAgents
      { sampleData with agentCode := "A001" } (by decide)).1 (by decide),
   (createAgent_keeps_codes_distinct sampleConstants 7 sampleAgents sampleData
      (by decide)).2.2⟩

/-! ## Presence (`agent-login`, `agent-logout`, `disconnect`) -/

theorem findOneAndUpdate_fst (db : List AgentDoc) (code : String)
    (u : AgentDoc → AgentDoc) :
    (findOneAndUpdate db code u).1 = (findOne db code).map u := by
  induction db with
  | nil => rfl
  | cons d rest ih =>
    unfold findOneAndUpdate findOne
    by_cases h : d.agentCode = code
    · simp [h]
    · simp only [h, if_false]
      rw [ih]
      simp [findOne, List.find?_cons, h]

theorem findOneAndUpdate_snd_of_none (db : List AgentDoc) (code : String)
    (u : AgentDoc → AgentDoc) (h : findOne db code = none) :
    (findOneAndUpdate db code u).2 = db := by
  induction db with
  | nil => rfl
  | cons d rest ih =>
    unfold findOne at h
    rw [List.find?_cons] at h
    unfold findOneAndUpdate
    by_cases hd : d.agentCode = code
    · simp [hd] at h
    · simp only [hd, if_false]
      have h' : findOne rest code = none := by
        simpa [findOne, hd] using h
      rw [ih h']

theorem findOne_findOneAndUpdate (db : List AgentDoc) (code : String)
    (u : AgentDoc → AgentDoc) (hu : ∀ d, (u d).agentCode = d.agentCode) :
    findOne (findOneAndUpdate db code u).2 code = (findOne db code).map u := by
  induction db with
  | nil => rfl
  | cons d rest ih =>
    unfold findOneAndUpdate
    by_cases h : d.agentCode = code
    · simp [h, findOne, List.find?_cons, hu]
    · simp only [h, if_false]
      have h1 : findOne (d :: (findOneAndUpdate rest code u).2) code =
          findOne (findOneAndUpdate rest code u).2 code := by
        simp [findOne, List.find?_cons, h]
      have h2 : findOne (d :: rest) code = findOne rest code := by
        simp [findOne, List.find?_cons, h]
      rw [h1, h2, ih]

theorem findOne_eq_none_iff (db : List AgentDoc) (code : String) :
    findOne db code = none ↔ ∀ d ∈ db, d.agentCode ≠ code := by
  unfold findOne
  rw [List.find?_eq_none]
  simp

/-- The fields a login writes. -/
theorem agentLogin_of_found (now : Nat) (c : String) (data : LoginData) (s : ServerState)
    (d : AgentDoc) (h : findOne s.db data.agentCode = some d) :
    agentLogin now c data s =
      { connectedClients := JsMap.set s.connectedClients c
          { agentCode := data.agentCode, agentName := data.agentName, agentId := d._id,
            loginTime := now },
        db := (findOneAndUpdate s.db data.agentCode
          (fun d => { d with isOnline := true, socketId := some c, loginTime := some now })).2,
        rooms := join s.rooms c ("agent-" ++ data.agentCode),
        emitted := s.emitted ++
          [ { target := .broadcast c, event := "agent-online",
              data := .presence data.agentCode data.agentName now },
            { target := .socket c, event := "login-success",
              data := .loginSuccess
                { d with isOnline := true, socketId := some c, loginTime := some now }
                "Successfully connected to Agent Wallboard System" } ] } := by
  unfold agentLogin
  simp only [findOneAndUpdate_fst, h, Option.map_some']

theorem agentLogin_of_not_found (now : Nat) (c : String) (data : LoginData) (s : ServerState)
    (h : findOne s.db data.agentCode = none) :
    agentLogin now c data s =
      { s with
        emitted := s.emitted ++
          [ { target := .socket c, event := "login-error",
              data := .message ("Agent " ++ data.agentCode ++ " not found") } ] } := by
  unfold agentLogin
  simp only [findOneAndUpdate_fst, h, Option.map_none', findOneAndUpdate_snd_of_none _ _ _ h]

theorem handleAgentDisconnect_of_bound (now : Nat) (c : String) (s : ServerState)
    (info : ClientInfo) (h : JsMap.get s.connectedClients c = some info) :
    handleAgentDisconnect now c s =
      { s with
        db := (findOneAndUpdate s.db info.agentCode
          (fun d => { d with isOnline := false, socketId := none, status := "Offline" })).2,
        connectedClients := JsMap.delete s.connectedClients c,
        emitted := s.emitted ++
          [ { target := .all, event := "agent-offline",
              data := .presence info.agentCode info.agentName now } ] } := by
  unfold handleAgentDisconnect
  simp only [h]

theorem handleAgentDisconnect_of_unbound (now : Nat) (c : String) (s : ServerState)
    (h : JsMap.get s.connectedClients c = none) :
    handleAgentDisconnect now c s = s := by
  unfold handleAgentDisconnect
  simp only [h]

/-- C6: a login with an agent code that no document of the collection has leaves
`connectedClients`, the collection and the room memberships as they are, and
emits one event only: a `login-error`, addressed to the socket of the login. -/
theorem agentLogin_unknown_code (now : Nat) (c : String) (data : LoginData)
    (s : ServerState) (h : ∀ d ∈ s.db, d.agentCode ≠ data.agentCode) :
    (agentLogin now c data s).connectedClients = s.connectedClients ∧
    (agentLogin now c data s).db = s.db ∧
    (agentLogin now c data s).rooms = s.rooms ∧
    (agentLogin now c data s).emitted = s.emitted ++
      [ { target := .socket c, event := "login-error",
          data := .message ("Agent " ++ data.agentCode ++ " not found") } ] := by
  rw [agentLogin_of_not_found now c data s ((findOne_eq_none_iff _ _).mpr h)]
  exact ⟨rfl, rfl, rfl, rfl⟩

/-- Witness of C6: `UNKNOWN` logs in on `c1` at the sample server. -/
theorem agentLogin_unknown_code_witness :
    (agentLogin 1 "c1" { agentCode := "UNKNOWN", agentName := "Eve" } sampleServer).connectedClients
      = [] ∧
    (agentLogin 1 "c1" { agentCode := "UNKNOWN", agentName := "Eve" } sampleServer).db
      = [sampleDoc] ∧
    (agentLogin 1 "c1" { agentCode := "UNKNOWN", agentName := "Eve" } sampleServer).rooms
      = [] ∧
    (agentLogin 1 "c1" { agentCode := "UNKNOWN", agentName := "Eve" } sampleServer).emitted =
      [] ++ [ { target := .socket "c1", event := "login-error",
                data := .message ("Agent " ++ "UNKNOWN" ++ " not found") } ] :=
  agentLogin_unknown_code 1 "c1" { agentCode := "UNKNOWN", agentName := "Eve" } sampleServer
    (by decide)

theorem exists_findOne (db : List AgentDoc) (code : String)
    (h : ∃ d ∈ db, d.agentCode = code) : ∃ d0, findOne db code = some d0 := by
  cases hf : findOne db code with
  | some d0 => exact ⟨d0, rfl⟩
  | none =>
    obtain ⟨d, hd, hc⟩ := h
    exact absurd hc ((findOne_eq_none_iff db code).mp hf d hd)

/-- C3: `handleAgentDisconnect` run twice on the same connection leaves the whole
state (registry, collection, emitted events) as one run leaves it; one run emits
exactly one `agent-offline` when the connection is bound, and when it is not
bound `handleAgentDisconnect` and the `agent-logout` handler return the state as
it was, with no event added. -/
theorem handleAgentDisconnect_idempotent (now1 now2 : Nat) (c : String) (s : ServerState) :
    handleAgentDisconnect now2 c (handleAgentDisconnect now1 c s) =
      handleAgentDisconnect now1 c s ∧
    (∀ info, JsMap.get s.connectedClients c = some info →
      (handleAgentDisconnect now1 c s).emitted = s.emitted ++
        [ { target := .all, event := "agent-offline",
            data := .presence info.agentCode info.agentName now1 } ]) ∧
    (JsMap.get s.connectedClients c = none →
      handleAgentDisconnect now1 c s = s ∧ agentLogout now1 c s = s) := by
  refine ⟨?_, ?_, ?_⟩
  · cases h : JsMap.get s.connectedClients c with
    | none =>
      rw [handleAgentDisconnect_of_unbound now1 c s h]
      exact handleAgentDisconnect_of_unbound now2 c s h
    | some info =>
      rw [handleAgentDisconnect_of_bound now1 c s info h]
      apply handleAgentDisconnect_of_unbound
      simp [JsMap.get_delete]
  · intro info h
    rw [handleAgentDisconnect_of_bound now1 c s info h]
  · intro h
    refine ⟨handleAgentDisconnect_of_unbound now1 c s h, ?_⟩
    unfold agentLogout JsMap.has
    simp [h]

/-- Witness of C3: at the sample server `c1` is bound after its login, so the
first disconnect emits the `agent-offline` and the second one changes nothing;
`c9` was never bound. -/
theorem handleAgentDisconnect_idempotent_witness :
    handleAgentDisconnect 6 "c1"
        (handleAgentDisconnect 5 "c1" (agentLogin 1 "c1" sampleLogin sampleServer)) =
      handleAgentDisconnect 5 "c1" (agentLogin 1 "c1" sampleLogin sampleServer) ∧
    (handleAgentDisconnect 5 "c1" (agentLogin 1 "c1" sampleLogin sampleServer)).emitted =
      (agentLogin 1 "c1" sampleLogin sampleServer).emitted ++
        [ { target := .all, event := "agent-offline", data := .presence "A001" "Ann" 5 } ] ∧
    agentLogout 5 "c9" sampleServer = sampleServer :=
  ⟨(handleAgentDisconnect_idempotent 5 6 "c1" (agentLogin 1 "c1" sampleLogin sampleServer)).1,
   (handleAgentDisconnect_idempotent 5 6 "c1"
      (agentLogin 1 "c1" sampleLogin sampleServer)).2.1
      { agentCode := "A001", agentName := "Ann", agentId := "64a0", loginTime := 1 } rfl,
   ((handleAgentDisconnect_idempotent 5 6 "c9" sampleServer).2.2 rfl).2⟩

/-- C5: for an agent code that a document of the collection has, whatever the
status of that document, a login on connection `c` followed by the disconnect of
`c` leaves the document of that code with `isOnline = false`, `socketId = null`
and `status = "Offline"`, leaves no registry entry for `c`, and adds to the
emitted events one `agent-online`, the `login-success` of `c` and then one
`agent-offline`, the first and the last with the code and name of the login. -/
theorem login_then_disconnect_marks_offline (now1 now2 : Nat) (c : String)
    (data : LoginData) (s : ServerState)
    (h : ∃ d ∈ s.db, d.agentCode = data.agentCode) :
    ∃ d0, findOne s.db data.agentCode = some d0 ∧
      (∃ d, findOne (loginThenDisconnect now1 now2 c data s).db data.agentCode = some d ∧
        d.isOnline = false ∧ d.socketId = none ∧ d.status = "Offline") ∧
      JsMap.get (loginThenDisconnect now1 now2 c data s).connectedClients c = none ∧
      (loginThenDisconnect now1 now2 c data s).emitted = s.emitted ++
        [ { target := .broadcast c, event := "agent-online",
            data := .presence data.agentCode data.agentName now1 },
          { target := .socket c, event := "login-success",
            data := .loginSuccess
              { d0 with isOnline := true, socketId := some c, loginTime := some now1 }
              "Successfully connected to Agent Wallboard System" },
          { target := .all, event := "agent-offline",
            data := .presence data.agentCode data.agentName now2 } ] := by
  obtain ⟨d0, hd0⟩ := exists_findOne s.db data.agentCode h
  refine ⟨d0, hd0, ?_⟩
  unfold loginThenDisconnect disconnect
  rw [agentLogin_of_found now1 c data s d0 hd0]
  rw [handleAgentDisconnect_of_bound now2 c _
    { agentCode := data.agentCode, agentName := data.agentName, agentId := d0._id,
      loginTime := now1 } (by simp [JsMap.get_set])]
  refine ⟨?_, ?_, ?_⟩
  · have e1 := fun db => findOne_findOneAndUpdate db data.agentCode
      (fun d : AgentDoc =>
        { d with isOnline := true, socketId := some c, loginTime := some now1 })
      (fun _ => rfl)
    have e2 := fun db => findOne_findOneAndUpdate db data.agentCode
      (fun d : AgentDoc => { d with isOnline := false, socketId := none, status := "Offline" })
      (fun _ => rfl)
    simp only
    rw [e2, e1, hd0]
    exact ⟨_, rfl, rfl, rfl, rfl⟩
  · simp [JsMap.get_delete]
  · simp

/-- Witness of C5: `A001`, whose status is `Available`, logs in on `c1` and
disconnects. -/
theorem login_then_disconnect_marks_offline_witness :
    ∃ d0, findOne sampleServer.db sampleLogin.agentCode = some d0 ∧
      (∃ d, findOne (loginThenDisconnect 1 5 "c1" sampleLogin sampleServer).db
          sampleLogin.agentCode = some d ∧
        d.isOnline = false ∧ d.socketId = none ∧ d.status = "Offline") ∧
      JsMap.get (loginThenDisconnect 1 5 "c1" sampleLogin sampleServer).connectedClients "c1"
        = none ∧
      (loginThenDisconnect 1 5 "c1" sampleLogin sampleServer).emitted = sampleServer.emitted ++
        [ { target := .broadcast "c1", event := "agent-online",
            data := .presence sampleLogin.agentCode sampleLogin.agentName 1 },
          { target := .socket "c1", event := "login-success",
            data := .loginSuccess
              { d0 with isOnline := true, socketId := some "c1", loginTime := some 1 }
              "Successfully connected to Agent Wallboard System" },
          { target := .all, event := "agent-offline",
            data := .presence sampleLogin.agentCode sampleLogin.agentName 5 } ] :=
  login_then_disconnect_marks_offline 1 5 "c1" sampleLogin sampleServer (by decide)

/-- C2 fails on the code: after `A001` logged in on `c1` and then on `c2`,
`connectedClients` still holds the entry of `c1`; the disconnect of `c1` then
emits an `agent-offline` for `A001` and rewrites the document, which was online
on `c2`, to offline with no socket. -/
theorem login_supersedes_counterexample :
    JsMap.get sampleTwoLogins.connectedClients "c1" =
      some { agentCode := "A001", agentName := "Ann", agentId := "64a0", loginTime := 1 } ∧
    findOne sampleTwoLogins.db "A001" =
      some { sampleDoc with isOnline := true, socketId := some "c2", loginTime := some 2 } ∧
    eventsNamed "agent-offline" sampleTwoLogins.emitted = [] ∧
    eventsNamed "agent-offline" (handleAgentDisconnect 3 "c1" sampleTwoLogins).emitted =
      [ { target := .all, event := "agent-offline", data := .presence "A001" "Ann" 3 } ] ∧
    findOne (handleAgentDisconnect 3 "c1" sampleTwoLogins).db "A001" =
      some { sampleDoc with isOnline := false, socketId := none, status := "Offline",
                            loginTime := some 2 } := by
  decide

/-- C2 as amended: a second login of the same agent on another connection does
not drop the registry entry of the first.  After the two logins the document of
the agent is online with `socketId = c2` and `connectedClients` holds an entry
for `c1` and one for `c2`; the disconnect of `c1` then emits one `agent-offline`
for the agent, sets the document to `isOnline = false`, `socketId = null`,
`status = "Offline"`, removes the entry of `c1` and keeps the entry of `c2`. -/
theorem second_login_keeps_first_entry (now1 now2 now3 : Nat) (c1 c2 : String)
    (data : LoginData) (s : ServerState) (hne : c1 ≠ c2)
    (h : ∃ d ∈ s.db, d.agentCode = data.agentCode) :
    (∃ id, JsMap.get (twoLogins now1 now2 c1 c2 data s).connectedClients c1 =
      some { agentCode := data.agentCode, agentName := data.agentName, agentId := id,
             loginTime := now1 }) ∧
    (∃ id, JsMap.get (twoLogins now1 now2 c1 c2 data s).connectedClients c2 =
      some { agentCode := data.agentCode, agentName := data.agentName, agentId := id,
             loginTime := now2 }) ∧
    (∃ d, findOne (twoLogins now1 now2 c1 c2 data s).db data.agentCode = some d ∧
      d.isOnline = true ∧ d.socketId = some c2) ∧
    (handleAgentDisconnect now3 c1 (twoLogins now1 now2 c1 c2 data s)).emitted =
      (twoLogins now1 now2 c1 c2 data s).emitted ++
        [ { target := .all, event := "agent-offline",
            data := .presence data.agentCode data.agentName now3 } ] ∧
    (∃ d, findOne (handleAgentDisconnect now3 c1 (twoLogins now1 now2 c1 c2 data s)).db
        data.agentCode = some d ∧
      d.isOnline = false ∧ d.socketId = none ∧ d.status = "Offline") ∧
    JsMap.get (handleAgentDisconnect now3 c1 (twoLogins now1 now2 c1 c2 data s)).connectedClients
      c1 = none ∧
    JsMap.get (handleAgentDisconnect now3 c1 (twoLogins now1 now2 c1 c2 data s)).connectedClients
      c2 = JsMap.get (twoLogins now1 now2 c1 c2 data s).connectedClients c2 := by
  obtain ⟨d0, hd0⟩ := exists_findOne s.db data.agentCode h
  have e1 := fun (c : String) (now : Nat) db => findOne_findOneAndUpdate db data.agentCode
    (fun d : AgentDoc => { d with isOnline := true, socketId := some c, loginTime := some now })
    (fun _ => rfl)
  have e2 := fun db => findOne_findOneAndUpdate db data.agentCode
    (fun d : AgentDoc => { d with isOnline := false, socketId := none, status := "Offline" })
    (fun _ => rfl)
  have hd1 : findOne (agentLogin now1 c1 data s).db data.agentCode =
      some { d0 with isOnline := true, socketId := some c1, loginTime := some now1 } := by
    rw [agentLogin_of_found now1 c1 data s d0 hd0]
    simp only
    rw [e1, hd0]; rfl
  have hreg1 : JsMap.get (twoLogins now1 now2 c1 c2 data s).connectedClients c1 =
      some { agentCode := data.agentCode, agentName := data.agentName, agentId := d0._id,
             loginTime := now1 } := by
    unfold twoLogins
    rw [agentLogin_of_found now2 c2 data _ _ hd1]
    simp only
    rw [JsMap.get_set, if_neg hne, agentLogin_of_found now1 c1 data s d0 hd0]
    simp [JsMap.get_set]
  have hreg2 : JsMap.get (twoLogins now1 now2 c1 c2 data s).connectedClients c2 =
      some { agentCode := data.agentCode, agentName := data.agentName, agentId := d0._id,
             loginTime := now2 } := by
    unfold twoLogins
    rw [agentLogin_of_found now2 c2 data _ _ hd1]
    simp [JsMap.get_set]
  have hdb2 : findOne (twoLogins now1 now2 c1 c2 data s).db data.agentCode =
      some { d0 with isOnline := true, socketId := some c2, loginTime := some now2 } := by
    unfold twoLogins
    rw [agentLogin_of_found now2 c2 data _ _ hd1]
    simp only
    rw [e1, hd1]; rfl
  rw [handleAgentDisconnect_of_bound now3 c1 _ _ hreg1]
  refine ⟨⟨_, hreg1⟩, ⟨_, hreg2⟩, ⟨_, hdb2, rfl, rfl⟩, rfl, ?_, ?_, ?_⟩
  · simp only
    rw [e2, hdb2]
    exact ⟨_, rfl, rfl, rfl, rfl⟩
  · simp [JsMap.get_delete]
  · simp only
    rw [JsMap.get_delete, if_neg (Ne.symm hne)]

/-- Witness of the amended C2 at the sample server. -/
theorem second_login_keeps_first_entry_witness :
    JsMap.get (handleAgentDisconnect 3 "c1"
        (twoLogins 1 2 "c1" "c2" sampleLogin sampleServer)).connectedClients "c2" =
      JsMap.get (twoLogins 1 2 "c1" "c2" sampleLogin sampleServer).connectedClients "c2" :=
  (second_login_keeps_first_entry 1 2 3 "c1" "c2" sampleLogin sampleServer
    (by decide) (by decide)).2.2.2.2.2.2

/-- C9 fails on the code: the successful login of `A001` on `c1`, and the logout
or the disconnect of `c1` after it, emit no `dashboardUpdate` at all. -/
theorem presence_change_pushes_dashboard_counterexample :
    eventsNamed "login-success" (agentLogin 1 "c1" sampleLogin sampleServer).emitted ≠ [] ∧
    eventsNamed "dashboardUpdate" (agentLogin 1 "c1" sampleLogin sampleServer).emitted = [] ∧
    eventsNamed "agent-offline"
      (agentLogout 5 "c1" (agentLogin 1 "c1" sampleLogin sampleServer)).emitted ≠ [] ∧
    eventsNamed "dashboardUpdate"
      (agentLogout 5 "c1" (agentLogin 1 "c1" sampleLogin sampleServer)).emitted = [] ∧
    eventsNamed "dashboardUpdate"
      (disconnect 5 "c1" (agentLogin 1 "c1" sampleLogin sampleServer)).emitted = [] := by
  decide

/-! ## Double arithmetic -/

theorem abs_roundTiesToEven_sub_le (x : ℚ) : |(roundTiesToEven x : ℚ) - x| ≤ 1 / 2 := by
  have h1 : (⌊x⌋ : ℚ) ≤ x := Int.floor_le x
  have h2 : x < ⌊x⌋ + 1 := Int.lt_floor_add_one x
  unfold roundTiesToEven
  simp only
  split_ifs with ha hb hc
  · rw [abs_le]; constructor <;> linarith
  · rw [abs_le]; push_cast; constructor <;> linarith
  · rw [abs_le]; constructor <;> linarith
  · rw [abs_le]; push_cast; constructor <;> linarith

theorem roundTiesToEven_eq_of_abs_lt (x : ℚ) (m : ℤ) (h : |x - m| < 1 / 2) :
    roundTiesToEven x = m := by
  rw [abs_lt] at h
  obtain ⟨hl, hr⟩ := h
  unfold roundTiesToEven
  simp only
  by_cases hx : (m : ℚ) ≤ x
  · have hf : ⌊x⌋ = m := by
      rw [Int.floor_eq_iff]; constructor <;> linarith
    rw [hf, if_pos (by linarith)]
  · push_neg at hx
    have hf : ⌊x⌋ = m - 1 := by
      rw [Int.floor_eq_iff]; push_cast; constructor <;> linarith
    rw [hf]
    push_cast
    rw [if_neg (by linarith), if_pos (by linarith)]
    ring

theorem log_two_eq (q : ℚ) (z : ℤ) (h1 : (2 : ℚ) ^ z ≤ q) (h2 : q < (2 : ℚ) ^ (z + 1)) :
    Int.log 2 q = z := by
  have hq : 0 < q := lt_of_lt_of_le (by positivity) h1
  have hb : 1 < 2 := by norm_num
  apply le_antisymm
  · have h3 : q < ((2 : ℕ) : ℚ) ^ (z + 1) := by exact_mod_cast h2
    have := (Int.lt_zpow_iff_log_lt hb hq).mp h3
    omega
  · have h3 : ((2 : ℕ) : ℚ) ^ z ≤ q := by exact_mod_cast h1
    exact (Int.zpow_le_iff_le_log hb hq).mp h3

/-- The value of `toDouble` at a positive number whose binary exponent and
rounded significand are known. -/
theorem toDouble_eq (q : ℚ) (e m : ℤ) (h1 : (2 : ℚ) ^ (e + 52) ≤ q)
    (h2 : q < (2 : ℚ) ^ (e + 52 + 1)) (hm : |q / 2 ^ e - m| < 1 / 2) :
    toDouble q = m * 2 ^ e := by
  have hq : 0 < q := lt_of_lt_of_le (by positivity) h1
  unfold toDouble
  rw [if_neg hq.ne', abs_of_pos hq, log_two_eq q (e + 52) h1 h2]
  simp only [add_sub_cancel_right]
  rw [roundTiesToEven_eq_of_abs_lt _ m hm]

/-- Rounding to a double moves a number by at most `2⁻⁵³` of its size. -/
theorem abs_toDouble_sub_le (q : ℚ) (hq : 0 ≤ q) : |toDouble q - q| ≤ q / 2 ^ 53 := by
  rcases hq.eq_or_lt with h0 | hpos
  · subst h0; simp [toDouble]
  unfold toDouble
  rw [if_neg hpos.ne', abs_of_pos hpos]
  simp only
  set e : ℤ := Int.log 2 q - 52 with he
  have hpow : (0 : ℚ) < 2 ^ e := by positivity
  have hlow : (2 : ℚ) ^ (e + 52) ≤ q := by
    have := Int.zpow_log_le_self (by norm_num : 1 < 2) hpos
    have he' : e + 52 = Int.log 2 q := by omega
    rw [he']; exact_mod_cast this
  have hr := abs_roundTiesToEven_sub_le (q / 2 ^ e)
  have heq : (roundTiesToEven (q / 2 ^ e) : ℚ) * 2 ^ e - q =
      ((roundTiesToEven (q / 2 ^ e) : ℚ) - q / 2 ^ e) * 2 ^ e := by
    field_simp
  rw [heq, abs_mul, abs_of_pos hpow]
  have h52 : (2 : ℚ) ^ (e + 52) = 2 ^ e * 2 ^ (52 : ℕ) := by
    rw [zpow_add₀ (by norm_num : (2 : ℚ) ≠ 0)]; norm_cast
  calc |(roundTiesToEven (q / 2 ^ e) : ℚ) - q / 2 ^ e| * 2 ^ e ≤ 1 / 2 * 2 ^ e := by
        exact mul_le_mul_of_nonneg_right hr hpow.le
    _ ≤ q / 2 ^ 53 := by
        rw [le_div_iff₀ (by positivity)]
        rw [h52] at hlow
        have : (2 : ℚ) ^ (53 : ℕ) = 2 * 2 ^ (52 : ℕ) := by norm_num
        rw [this]
        nlinarith

theorem mathRound_eq (x : ℚ) (k : ℤ) (h1 : (k : ℚ) - 1 / 2 ≤ x) (h2 : x < k + 1 / 2) :
    mathRound x = k := by
  unfold mathRound
  rw [Int.floor_eq_iff]
  constructor <;> linarith

/-- In double arithmetic 23 of 40 is 57 percent: `23 / 40` is
`0.57499999999999995559…`, times 100 is `57.49999999999999289…`. -/
theorem percentage_23_40 : percentage 23 40 = 57 := by
  have h1 : jsDiv 23 40 = 5179139571476070 * 2 ^ (-53 : ℤ) := by
    unfold jsDiv
    apply toDouble_eq
    · norm_num
    · norm_num
    · rw [abs_lt]; constructor <;> norm_num
  have h2 : jsMul (5179139571476070 * 2 ^ (-53 : ℤ)) 100 =
      8092405580431359 * 2 ^ (-47 : ℤ) := by
    unfold jsMul
    apply toDouble_eq
    · norm_num
    · norm_num
    · rw [abs_lt]; constructor <;> norm_num
  unfold percentage
  rw [if_pos (by norm_num)]
  push_cast
  rw [h1, h2]
  apply mathRound_eq <;> norm_num

/-- In exact arithmetic 23 of 40 is 57.5 percent, which rounds to 58. -/
theorem exactPercentage_23_40 : exactPercentage 23 40 = 58 := by
  unfold exactPercentage
  rw [if_pos (by norm_num), Int.floor_eq_iff]
  constructor <;> norm_num

/-- The double computed for `(c / t) * 100` is within `2⁻⁴⁵` of the exact
percentage. -/
theorem abs_jsMul_jsDiv_sub_le (c t : ℕ) (ht : 0 < t) (hc : c ≤ t) :
    |jsMul (jsDiv c t) 100 - (c : ℚ) / t * 100| ≤ 1 / 2 ^ 45 := by
  have ht' : (0 : ℚ) < t := by exact_mod_cast ht
  have hx0 : (0 : ℚ) ≤ (c : ℚ) / t := by positivity
  have hx1 : (c : ℚ) / t ≤ 1 := by
    rw [div_le_one ht']; exact_mod_cast hc
  have e1 := abs_toDouble_sub_le ((c : ℚ) / t) hx0
  rw [abs_le] at e1
  have hy0 : 0 ≤ toDouble ((c : ℚ) / t) := by
    have : (c : ℚ) / t / 2 ^ 53 ≤ (c : ℚ) / t := by
      apply div_le_self hx0; norm_num
    linarith [e1.1]
  have e2 := abs_toDouble_sub_le (toDouble ((c : ℚ) / t) * 100) (by positivity)
  rw [abs_le] at e2
  unfold jsMul jsDiv
  rw [abs_le]
  have hpow : (0 : ℚ) < 2 ^ 53 := by positivity
  have k1 : (c : ℚ) / t / 2 ^ 53 ≤ 1 / 2 ^ 53 := by
    apply div_le_div_of_nonneg_right hx1 hpow.le
  have k2 : toDouble ((c : ℚ) / t) * 100 / 2 ^ 53 ≤ (1 + 1 / 2 ^ 53) * 100 / 2 ^ 53 := by
    apply div_le_div_of_nonneg_right _ hpow.le
    nlinarith [e1.2]
  have k3 : (1 + 1 / 2 ^ 53) * 100 / 2 ^ 53 + 100 * (1 / 2 ^ 53) ≤ (1 : ℚ) / 2 ^ 45 := by
    norm_num
  constructor
  · linarith [e1.1, e2.1]
  · linarith [e1.2, e2.2]

/-- The computed percentage is an integer nearest to the exact percentage
`100 c / t`. -/
theorem percentage_nearest (c t : ℕ) (ht : 0 < t) (hc : c ≤ t) (hsize : t < 2 ^ 32) :
    |2 * (t : ℤ) * percentage c t - 200 * c| ≤ t := by
  have ht' : (0 : ℚ) < t := by exact_mod_cast ht
  have herr := abs_jsMul_jsDiv_sub_le c t ht hc
  rw [abs_le] at herr
  unfold percentage
  rw [if_pos ht]
  set y := jsMul (jsDiv c t) 100 with hy
  set p := mathRound y with hp
  have hp1 : (p : ℚ) ≤ y + 1 / 2 := Int.floor_le _
  have hp2 : y + 1 / 2 < p + 1 := Int.lt_floor_add_one _
  have hX : (c : ℚ) / t * 100 * (2 * t) = 200 * c := by field_simp; ring
  have hsz : (t : ℚ) < 2 ^ 32 := by exact_mod_cast hsize
  have hsmall : (2 * (t : ℚ)) * (1 / 2 ^ 45) < 1 := by
    have : (2 * (2 : ℚ) ^ 32) * (1 / 2 ^ 45) < 1 := by norm_num
    nlinarith
  rw [abs_le]
  constructor
  · by_contra hneg
    push_neg at hneg
    have hint : 2 * (t : ℤ) * p - 200 * c + 1 ≤ -(t : ℤ) := by omega
    have hq : 2 * (t : ℚ) * p - 200 * c + 1 ≤ -(t : ℚ) := by exact_mod_cast hint
    nlinarith [herr.1, herr.2]
  · by_contra hneg
    push_neg at hneg
    have hint : (t : ℤ) + 1 ≤ 2 * (t : ℤ) * p - 200 * c := by omega
    have hq : (t : ℚ) + 1 ≤ 2 * (t : ℚ) * p - 200 * c := by exact_mod_cast hint
    nlinarith [herr.1, herr.2]

theorem percentage_range (c t : ℕ) (hc : c ≤ t) (hsize : t < 2 ^ 32) :
    0 ≤ percentage c t ∧ percentage c t ≤ 100 := by
  rcases Nat.eq_zero_or_pos t with h0 | ht
  · subst h0; simp [percentage]
  have h := percentage_nearest c t ht hc hsize
  rw [abs_le] at h
  have hc' : (c : ℤ) ≤ t := by exact_mod_cast hc
  have ht' : (0 : ℤ) < t := by exact_mod_cast ht
  have hc0 : (0 : ℤ) ≤ c := by positivity
  constructor
  · by_contra hneg
    push_neg at hneg
    have : percentage c t ≤ -1 := by omega
    nlinarith [h.1]
  · by_contra hneg
    push_neg at hneg
    have : 101 ≤ percentage c t := by omega
    nlinarith [h.2]

/-- Away from a tie of the exact percentage the computed percentage is the exact
percentage rounded half up. -/
theorem percentage_eq_exact (c t : ℕ) (ht : 0 < t) (hc : c ≤ t) (hsize : t < 2 ^ 32)
    (htie : ¬ 2 * t ∣ 200 * c + t) : percentage c t = exactPercentage c t := by
  have h := percentage_nearest c t ht hc hsize
  rw [abs_le] at h
  have hr := (percentage_range c t hc hsize).1
  have ht' : (0 : ℚ) < t := by exact_mod_cast ht
  unfold exactPercentage
  rw [if_pos ht]
  symm
  rw [Int.floor_eq_iff]
  have hX : (c : ℚ) / t * 100 * (2 * t) = 200 * c := by field_simp; ring
  have h1 : (2 * (t : ℚ) * percentage c t - 200 * c) ≤ t := by exact_mod_cast h.2
  have hne : 2 * (t : ℤ) * percentage c t - 200 * c ≠ -(t : ℤ) := by
    intro heq
    apply htie
    have hz : (200 * (c : ℤ) + t) = 2 * t * (percentage c t + 1) := by linarith
    have hdvd : (2 * (t : ℤ)) ∣ 200 * (c : ℤ) + t := ⟨percentage c t + 1, hz⟩
    exact_mod_cast hdvd
  have h2' : -(t : ℤ) + 1 ≤ 2 * (t : ℤ) * percentage c t - 200 * c := by
    have := h.1; omega
  have h2 : -(t : ℚ) + 1 ≤ 2 * (t : ℚ) * percentage c t - 200 * c := by exact_mod_cast h2'
  constructor
  · have : ((percentage c t : ℚ) - ((c : ℚ) / t * 100 + 1 / 2)) * (2 * t) ≤ 0 := by
      nlinarith
    by_contra hneg
    push_neg at hneg
    nlinarith
  · have : 0 < ((percentage c t : ℚ) + 1 - ((c : ℚ) / t * 100 + 1 / 2)) * (2 * t) := by
      nlinarith
    by_contra hneg
    push_neg at hneg
    nlinarith

/-! ## Objects built by repeated assignment -/

theorem foldl_addKey_props (l : List String) :
    ∀ ks : List String, ks.Nodup →
      (l.foldl (fun ks k => if k ∈ ks then ks else ks ++ [k]) ks).Nodup ∧
      ∀ x, x ∈ l.foldl (fun ks k => if k ∈ ks then ks else ks ++ [k]) ks ↔ x ∈ ks ∨ x ∈ l := by
  induction l with
  | nil => intro ks hks; simp [hks]
  | cons a l ih =>
    intro ks hks
    rw [List.foldl_cons]
    by_cases ha : a ∈ ks
    · rw [if_pos ha]
      obtain ⟨h1, h2⟩ := ih ks hks
      refine ⟨h1, fun x => ?_⟩
      rw [h2 x, List.mem_cons]
      constructor
      · rintro (h | h)
        · exact Or.inl h
        · exact Or.inr (Or.inr h)
      · rintro (h | h | h)
        · exact Or.inl h
        · exact Or.inl (h ▸ ha)
        · exact Or.inr h
    · rw [if_neg ha]
      have hks' : (ks ++ [a]).Nodup := by
        rw [List.nodup_append]
        refine ⟨hks, List.nodup_singleton a, ?_⟩
        intro x hx hx'
        rw [List.mem_singleton] at hx'
        exact ha (hx' ▸ hx)
      obtain ⟨h1, h2⟩ := ih (ks ++ [a]) hks'
      refine ⟨h1, fun x => ?_⟩
      rw [h2 x, List.mem_append, List.mem_singleton, List.mem_cons]
      tauto

theorem foldl_addKey_of_nodup (l : List String) :
    ∀ ks : List String, l.Nodup → (∀ x ∈ l, x ∉ ks) →
      l.foldl (fun ks k => if k ∈ ks then ks else ks ++ [k]) ks = ks ++ l := by
  induction l with
  | nil => intro ks _ _; simp
  | cons a l ih =>
    intro ks hl hd
    rw [List.foldl_cons, if_neg (hd a (List.mem_cons_self a l))]
    rw [List.nodup_cons] at hl
    rw [ih (ks ++ [a]) hl.2]
    · simp
    · intro x hx
      rw [List.mem_append, List.mem_singleton]
      rintro (h | h)
      · exact hd x (List.mem_cons_of_mem a hx) h
      · exact hl.1 (h ▸ hx)

theorem nodup_insertionOrder (l : List String) : (insertionOrder l).Nodup :=
  (foldl_addKey_props l [] List.nodup_nil).1

theorem mem_insertionOrder (l : List String) (x : String) : x ∈ insertionOrder l ↔ x ∈ l := by
  unfold insertionOrder
  rw [(foldl_addKey_props l [] List.nodup_nil).2 x]
  simp

theorem JsMap.get_map_pair {γ : Type} (g : String → γ) (ks : List String) (st : String) :
    JsMap.get (ks.map fun s => (s, g s)) st = if st ∈ ks then some (g st) else none := by
  induction ks with
  | nil => simp [JsMap.get]
  | cons k ks ih =>
    rw [List.map_cons, JsMap.get_cons, ih]
    by_cases h : st = k
    · subst h; simp
    · simp [h]

theorem JsMap.keys_map_pair {γ : Type} (g : String → γ) (ks : List String) :
    JsMap.keys (ks.map fun s => (s, g s)) = ks := by
  unfold JsMap.keys
  rw [List.map_map]
  exact List.map_id'' (fun _ => rfl) ks

theorem JsMap.values_map_pair {γ : Type} (g : String → γ) (ks : List String) :
    JsMap.values (ks.map fun s => (s, g s)) = ks.map g := by
  unfold JsMap.values
  rw [List.map_map]
  rfl

theorem JsMap.set_map_pair {γ : Type} (g : String → γ) (ks : List String) (st : String) :
    JsMap.set (ks.map fun s => (s, g s)) st (g st) =
      (if st ∈ ks then ks else ks ++ [st]).map fun s => (s, g s) := by
  unfold JsMap.set JsMap.has
  rw [JsMap.get_map_pair]
  by_cases h : st ∈ ks
  · simp only [h, if_true, Option.isSome_some]
    rw [List.map_map]
    apply List.map_congr_left
    intro s _
    by_cases hs : s = st
    · subst hs; simp
    · simp [hs]
  · simp [h]

/-- Assigning `obj[st] = g st` for the `st` of `l` in turn, from the empty object,
yields one entry per distinct `st`, in order of first occurrence. -/
theorem foldl_set_map_pair {γ : Type} (g : String → γ) (l : List String) :
    ∀ ks : List String,
      l.foldl (fun acc st => JsMap.set acc st (g st)) (ks.map fun s => (s, g s)) =
        (l.foldl (fun ks k => if k ∈ ks then ks else ks ++ [k]) ks).map fun s => (s, g s) := by
  induction l with
  | nil => intro ks; rfl
  | cons a l ih =>
    intro ks
    rw [List.foldl_cons, List.foldl_cons, JsMap.set_map_pair, ih]

theorem foldl_set_eq_insertionOrder {γ : Type} (g : String → γ) (l : List String) :
    l.foldl (fun acc st => JsMap.set acc st (g st)) [] =
      (insertionOrder l).map fun s => (s, g s) :=
  foldl_set_map_pair g l []

theorem foldl_set_of_nodup {γ : Type} (g : String → γ) (l : List String) (hl : l.Nodup) :
    l.foldl (fun acc st => JsMap.set acc st (g st)) [] = l.map fun s => (s, g s) := by
  rw [foldl_set_eq_insertionOrder]
  unfold insertionOrder
  rw [foldl_addKey_of_nodup l [] hl (fun _ _ => List.not_mem_nil _)]
  rfl

/-- Assignments `obj[st] = g st` skip the name `__proto__` and set every other
name. -/
theorem foldl_assign_eq_foldl_set {γ : Type} (g : String → γ) (l : List String) :
    ∀ acc : JsMap γ,
      l.foldl (fun acc st => JsObject.assign acc st (g st)) acc =
        (l.filter (fun st => st ≠ "__proto__")).foldl
          (fun acc st => JsMap.set acc st (g st)) acc := by
  induction l with
  | nil => intro acc; rfl
  | cons a l ih =>
    intro acc
    rw [List.foldl_cons, List.filter_cons]
    by_cases ha : a = "__proto__"
    · subst ha
      simp only [JsObject.assign, if_true, ne_eq, not_true_eq_false, decide_False,
        Bool.false_eq_true, if_false]
      exact ih acc
    · simp only [JsObject.assign, if_neg ha, ne_eq, ha, not_false_eq_true, decide_True,
        if_true, List.foldl_cons]
      exact ih _

theorem foldl_assign_eq_insertionOrder {γ : Type} (g : String → γ) (l : List String) :
    l.foldl (fun acc st => JsObject.assign acc st (g st)) [] =
      (insertionOrder (l.filter (fun st => st ≠ "__proto__"))).map fun s => (s, g s) := by
  rw [foldl_assign_eq_foldl_set, foldl_set_eq_insertionOrder]

theorem foldl_assign_of_nodup {γ : Type} (g : String → γ) (l : List String) (hl : l.Nodup)
    (hp : "__proto__" ∉ l) :
    l.foldl (fun acc st => JsObject.assign acc st (g st)) [] = l.map fun s => (s, g s) := by
  have hf : l.filter (fun st => st ≠ "__proto__") = l := by
    rw [List.filter_eq_self]
    intro a ha
    have : a ≠ "__proto__" := fun e => hp (e ▸ ha)
    simpa using this
  rw [foldl_assign_eq_foldl_set, hf]
  exact foldl_set_of_nodup g l hl

/-! ## The status summary (`getStatusSummary`) -/

/-- The enumerated statuses that become keys of the summary objects: all but the
name `__proto__`, each once. -/
theorem not_proto_mem_insertionOrder_filter (l : List String) :
    "__proto__" ∉ insertionOrder (l.filter (fun st => st ≠ "__proto__")) := by
  rw [mem_insertionOrder, List.mem_filter]
  simp

/-- The summary `getStatusSummary` returns, entry by entry. -/
theorem getStatusSummary_eq (K : Constants) (now : Nat) (agents : JsMap Agent) :
    getStatusSummary K now agents =
      .sendSuccess "Status summary retrieved successfully"
        (.summary
          { totalAgents := (JsMap.values agents).length,
            statusCounts :=
              (insertionOrder ((JsMap.values K.AGENT_STATUS).filter
                  (fun st => st ≠ "__proto__"))).map
                fun st => (st, countStatus agents st),
            statusPercentages :=
              (insertionOrder ((JsMap.values K.AGENT_STATUS).filter
                  (fun st => st ≠ "__proto__"))).map
                fun st => (st, percentage (countStatus agents st) (JsMap.values agents).length),
            lastUpdated := now })
        none := by
  unfold getStatusSummary
  simp only
  have hc : (JsMap.values K.AGENT_STATUS).foldl
      (fun acc status =>
        JsObject.assign acc status
          ((JsMap.values agents).filter (fun agent => agent.status = status)).length) [] =
      (insertionOrder ((JsMap.values K.AGENT_STATUS).filter
          (fun st => st ≠ "__proto__"))).map
        fun st => (st, countStatus agents st) :=
    foldl_assign_eq_insertionOrder (fun st => countStatus agents st) _
  rw [hc, List.foldl_map]
  have hp := foldl_assign_of_nodup
    (fun st => percentage (countStatus agents st) (JsMap.values agents).length)
    (insertionOrder ((JsMap.values K.AGENT_STATUS).filter (fun st => st ≠ "__proto__")))
    (nodup_insertionOrder _) (not_proto_mem_insertionOrder_filter _)
  rw [hp]

/-- The summary for an enumeration that does not hold the name `__proto__`. -/
theorem getStatusSummary_eq_of_no_proto (K : Constants) (now : Nat) (agents : JsMap Agent)
    (hproto : "__proto__" ∉ JsMap.values K.AGENT_STATUS) :
    getStatusSummary K now agents =
      .sendSuccess "Status summary retrieved successfully"
        (.summary
          { totalAgents := (JsMap.values agents).length,
            statusCounts := (insertionOrder (JsMap.values K.AGENT_STATUS)).map
              fun st => (st, countStatus agents st),
            statusPercentages := (insertionOrder (JsMap.values K.AGENT_STATUS)).map
              fun st => (st, percentage (countStatus agents st) (JsMap.values agents).length),
            lastUpdated := now })
        none := by
  have hf : (JsMap.values K.AGENT_STATUS).filter (fun st => st ≠ "__proto__") =
      JsMap.values K.AGENT_STATUS := by
    rw [List.filter_eq_self]
    intro a ha
    have : a ≠ "__proto__" := fun e => hproto (e ▸ ha)
    simpa using this
  rw [getStatusSummary_eq, hf]

theorem countStatus_le (agents : JsMap Agent) (st : String) :
    countStatus agents st ≤ (JsMap.values agents).length :=
  List.length_filter_le _ _

theorem sum_indicator (ks : List String) (hks : ks.Nodup) (x : String) (hx : x ∈ ks) :
    (ks.map fun st => if x = st then 1 else 0).sum = 1 := by
  induction ks with
  | nil => simp at hx
  | cons k ks ih =>
    rw [List.nodup_cons] at hks
    rw [List.map_cons, List.sum_cons]
    by_cases h : x = k
    · subst h
      have hz : (ks.map fun st => if x = st then 1 else 0) = ks.map fun _ => 0 := by
        apply List.map_congr_left
        intro s hs
        have : x ≠ s := fun e => hks.1 (e ▸ hs)
        simp [this]
      rw [hz]; simp
    · rw [if_neg h, ih hks.2 (by simpa [h] using hx)]

/-- The counts of the statuses of a duplicate-free list that holds the status
of every agent add up to the number of agents. -/
theorem sum_counts_eq_length (ks : List String) (hks : ks.Nodup) (l : List Agent)
    (hl : ∀ a ∈ l, a.status ∈ ks) :
    (ks.map fun st => (l.filter (fun agent => agent.status = st)).length).sum = l.length := by
  induction l with
  | nil => simp
  | cons a l ih =>
    have hstep : (ks.map fun st => ((a :: l).filter (fun agent => agent.status = st)).length) =
        ks.map fun st => (if a.status = st then 1 else 0) +
          (l.filter (fun agent => agent.status = st)).length := by
      apply List.map_congr_left
      intro st _
      rw [List.filter_cons]
      by_cases h : a.status = st
      · simp [h]; omega
      · simp [h]
    rw [hstep, List.sum_map_add, sum_indicator ks hks a.status (hl a (List.mem_cons_self a l)),
      ih (fun b hb => hl b (List.mem_cons_of_mem a hb))]
    simp; omega

theorem abs_sum_le (t : ℕ) (p : String → ℤ) (c : String → ℕ) (ks : List String)
    (h : ∀ st ∈ ks, |2 * (t : ℤ) * p st - 200 * c st| ≤ t) :
    |2 * (t : ℤ) * (ks.map p).sum - 200 * ((ks.map c).sum : ℕ)| ≤ ks.length * t := by
  induction ks with
  | nil => simp
  | cons k ks ih =>
    have h1 := h k (List.mem_cons_self k ks)
    have h2 := ih (fun st hst => h st (List.mem_cons_of_mem k hst))
    simp only [List.map_cons, List.sum_cons, List.length_cons]
    rw [abs_le] at h1 h2 ⊢
    push_cast at h1 h2 ⊢
    constructor <;> nlinarith [h1.1, h1.2, h2.1, h2.2]

/-- C7 fails on the code: with 40 stored agents of which 23 are `Busy`,
`getStatusSummary` reports 57 percent for `Busy` (`23 / 40` is the double
`0.57499999999999995559…`, times 100 is the double `57.49999999999999289…`, which
`Math.round` takes to 57), while `round(23 / 40 × 100)` with a half rounded up
is 58. -/
theorem getStatusSummary_percentage_counterexample :
    ∃ sm, (getStatusSummary sampleConstants 0 fortyAgents).summary? = some sm ∧
      sm.totalAgents = 40 ∧
      JsMap.get sm.statusCounts "Busy" = some 23 ∧
      JsMap.get sm.statusPercentages "Busy" = some 57 ∧
      exactPercentage 23 40 = 58 := by
  rw [getStatusSummary_eq_of_no_proto _ _ _ (by decide)]
  have hlen : (JsMap.values fortyAgents).length = 40 := by decide
  have hcount : countStatus fortyAgents "Busy" = 23 := by decide
  have hmem : "Busy" ∈ insertionOrder (JsMap.values sampleConstants.AGENT_STATUS) := by
    rw [mem_insertionOrder]; decide
  refine ⟨_, rfl, hlen, ?_, ?_, exactPercentage_23_40⟩
  · simp only
    rw [JsMap.get_map_pair, if_pos hmem, hcount]
  · simp only
    rw [JsMap.get_map_pair, if_pos hmem, hcount, hlen, percentage_23_40]

/-- C7 as amended: for a status enumeration that does not hold the name
`__proto__`, `getStatusSummary` returns `totalAgents` equal to the number of
stored agents, a `statusCounts` map whose keys are exactly the enumerated
statuses, each once, with the number of agents in that status, and a
`statusPercentages` map over the same keys in which the entry of `st` is
`Math.round` of the double `(count / totalAgents) * 100`.  That entry is an
integer in `0..100`; it is 0 when there are no agents; otherwise it is an integer
nearest to the exact percentage `100 · count / totalAgents`, and it is the exact
percentage rounded half up unless the exact percentage lies exactly halfway
between two integers.  (The store holds fewer than `2³²` agents, the bound of a
JavaScript array.) -/
theorem getStatusSummary_counts_and_percentages (K : Constants) (now : Nat)
    (agents : JsMap Agent) (hsize : (JsMap.values agents).length < 2 ^ 32)
    (hproto : "__proto__" ∉ JsMap.values K.AGENT_STATUS) :
    ∃ sm, (getStatusSummary K now agents).summary? = some sm ∧
      sm.totalAgents = (JsMap.values agents).length ∧
      (JsMap.keys sm.statusCounts).Nodup ∧
      (∀ st, st ∈ JsMap.keys sm.statusCounts ↔ st ∈ JsMap.values K.AGENT_STATUS) ∧
      JsMap.keys sm.statusPercentages = JsMap.keys sm.statusCounts ∧
      ∀ st ∈ JsMap.values K.AGENT_STATUS,
        JsMap.get sm.statusCounts st = some (countStatus agents st) ∧
        JsMap.get sm.statusPercentages st =
          some (percentage (countStatus agents st) (JsMap.values agents).length) ∧
        0 ≤ percentage (countStatus agents st) (JsMap.values agents).length ∧
        percentage (countStatus agents st) (JsMap.values agents).length ≤ 100 ∧
        ((JsMap.values agents).length = 0 →
          percentage (countStatus agents st) (JsMap.values agents).length = 0) ∧
        (0 < (JsMap.values agents).length →
          |2 * ((JsMap.values agents).length : ℤ) *
              percentage (countStatus agents st) (JsMap.values agents).length
            - 200 * countStatus agents st| ≤ (JsMap.values agents).length) ∧
        (0 < (JsMap.values agents).length →
          ¬ 2 * (JsMap.values agents).length ∣
            200 * countStatus agents st + (JsMap.values agents).length →
          percentage (countStatus agents st) (JsMap.values agents).length =
            exactPercentage (countStatus agents st) (JsMap.values agents).length) := by
  rw [getStatusSummary_eq_of_no_proto K now agents hproto]
  refine ⟨_, rfl, rfl, ?_, ?_, ?_, ?_⟩
  · simp only
    rw [JsMap.keys_map_pair]
    exact nodup_insertionOrder _
  · intro st
    simp only
    rw [JsMap.keys_map_pair, mem_insertionOrder]
  · simp only
    rw [JsMap.keys_map_pair, JsMap.keys_map_pair]
  · intro st hst
    have hmem : st ∈ insertionOrder (JsMap.values K.AGENT_STATUS) :=
      (mem_insertionOrder _ _).mpr hst
    have hle := countStatus_le agents st
    have hr := percentage_range _ _ hle hsize
    simp only
    refine ⟨?_, ?_, hr.1, hr.2, ?_, ?_, ?_⟩
    · rw [JsMap.get_map_pair, if_pos hmem]
    · rw [JsMap.get_map_pair, if_pos hmem]
    · intro h0
      rw [h0]; simp [percentage]
    · intro hpos
      exact percentage_nearest _ _ hpos hle hsize
    · intro hpos htie
      exact percentage_eq_exact _ _ hpos hle hsize htie

/-- Witness of the amended C7, at the forty agents: the summary counts 40 agents,
23 of them `Busy`, none on `Break`; the percentage of `Break`, where the exact
percentage is no tie, is the exact percentage rounded half up. -/
theorem getStatusSummary_counts_and_percentages_witness :
    ∃ sm, (getStatusSummary sampleConstants 0 fortyAgents).summary? = some sm ∧
      sm.totalAgents = 40 ∧
      JsMap.get sm.statusCounts "Busy" = some 23 ∧
      JsMap.get sm.statusCounts "Break" = some 0 ∧
      JsMap.get sm.statusPercentages "Break" = some (exactPercentage 0 40) := by
  obtain ⟨sm, h1, h2, _, _, _, h6⟩ :=
    getStatusSummary_counts_and_percentages sampleConstants 0 fortyAgents
      (by decide) (by decide)
  have hlen : (JsMap.values fortyAgents).length = 40 := by decide
  have hbusy : countStatus fortyAgents "Busy" = 23 := by decide
  have hbreak : countStatus fortyAgents "Break" = 0 := by decide
  have eBusy := h6 "Busy" (by decide)
  have eBreak := h6 "Break" (by decide)
  rw [hlen] at h2
  rw [hbusy] at eBusy
  rw [hbreak, hlen] at eBreak
  refine ⟨sm, h1, h2, eBusy.1, eBreak.1, ?_⟩
  rw [eBreak.2.1, eBreak.2.2.2.2.2.2 (by decide) (by decide)]

/-- In double arithmetic 1 of 2 is 50 percent. -/
theorem percentage_1_2 : percentage 1 2 = 50 := by
  have h1 : jsDiv 1 2 = 4503599627370496 * 2 ^ (-53 : ℤ) := by
    unfold jsDiv
    apply toDouble_eq
    · norm_num
    · norm_num
    · rw [abs_lt]; constructor <;> norm_num
  have h2 : jsMul (4503599627370496 * 2 ^ (-53 : ℤ)) 100 =
      7036874417766400 * 2 ^ (-47 : ℤ) := by
    unfold jsMul
    apply toDouble_eq
    · norm_num
    · norm_num
    · rw [abs_lt]; constructor <;> norm_num
  unfold percentage
  rw [if_pos (by norm_num)]
  push_cast
  rw [h1, h2]
  apply mathRound_eq <;> norm_num

/-- For an enumeration without the name `__proto__`, with `k` distinct statuses,
and a non-empty store in which the status of every agent is enumerated, the
percentages `getStatusSummary` returns add up to 100 within `k / 2` (twice the
sum is within `k` of 200); with an empty store every percentage is 0 and so is
the sum.  (The store holds fewer than `2³²` agents, the bound of a JavaScript
array.) -/
theorem statusPercentages_sum_of_no_proto (K : Constants) (now : Nat)
    (agents : JsMap Agent) (hsize : (JsMap.values agents).length < 2 ^ 32)
    (hproto : "__proto__" ∉ JsMap.values K.AGENT_STATUS)
    (hmem : ∀ a ∈ JsMap.values agents, a.status ∈ JsMap.values K.AGENT_STATUS) :
    ∃ sm, (getStatusSummary K now agents).summary? = some sm ∧
      (0 < (JsMap.values agents).length →
        |2 * (JsMap.values sm.statusPercentages).sum - 200| ≤
          ((JsMap.values K.AGENT_STATUS).toFinset.card : ℤ)) ∧
      ((JsMap.values agents).length = 0 →
        (∀ p ∈ JsMap.values sm.statusPercentages, p = 0) ∧
        (JsMap.values sm.statusPercentages).sum = 0) := by
  rw [getStatusSummary_eq_of_no_proto K now agents hproto]
  refine ⟨_, rfl, ?_, ?_⟩
  · simp only
    intro hpos
    rw [JsMap.values_map_pair]
    set ks := insertionOrder (JsMap.values K.AGENT_STATUS) with hks
    set t := (JsMap.values agents).length with ht
    have hnd : ks.Nodup := nodup_insertionOrder _
    have hcard : (JsMap.values K.AGENT_STATUS).toFinset.card = ks.length := by
      rw [← List.toFinset_card_of_nodup hnd]
      congr 1
      ext x
      simp [hks, mem_insertionOrder]
    have hsum : (ks.map fun st => countStatus agents st).sum = t :=
      sum_counts_eq_length ks hnd (JsMap.values agents)
        (fun a ha => (mem_insertionOrder _ _).mpr (hmem a ha))
    have hbound := abs_sum_le t (fun st => percentage (countStatus agents st) t)
      (fun st => countStatus agents st) ks
      (fun st _ => percentage_nearest _ _ hpos (countStatus_le agents st) hsize)
    rw [hsum, abs_le] at hbound
    rw [hcard, abs_le]
    have ht0 : (0 : ℤ) < t := by exact_mod_cast hpos
    constructor
    · by_contra hneg
      push_neg at hneg
      nlinarith [hbound.1]
    · by_contra hneg
      push_neg at hneg
      nlinarith [hbound.2]
  · simp only
    intro h0
    rw [JsMap.values_map_pair, h0]
    have hz : ∀ p ∈ (insertionOrder (JsMap.values K.AGENT_STATUS)).map
        (fun st => percentage (countStatus agents st) 0), p = 0 := by
      intro p hp
      rw [List.mem_map] at hp
      obtain ⟨st, _, rfl⟩ := hp
      simp [percentage]
    exact ⟨hz, List.sum_eq_zero hz⟩

/-- C10 fails on the code: with the two enumerated statuses `Available` and
`__proto__` and two stored agents, one in each, the assignment
`statusCounts["__proto__"] = 1` makes no key, so the summary holds the one
percentage 50 for `Available`; the sum is 50, which is not within `2 / 2` of
100. -/
theorem statusPercentages_proto_sum :
    ∃ sm, (getStatusSummary protoConstants 0 protoAgents).summary? = some sm ∧
      sm.totalAgents = 2 ∧
      (∀ a ∈ JsMap.values protoAgents,
        a.status ∈ JsMap.values protoConstants.AGENT_STATUS) ∧
      (JsMap.values protoConstants.AGENT_STATUS).toFinset.card = 2 ∧
      sm.statusCounts = [("Available", 1)] ∧
      sm.statusPercentages = [("Available", 50)] ∧
      (JsMap.values sm.statusPercentages).sum = 50 ∧
      ¬ |2 * (JsMap.values sm.statusPercentages).sum - 200| ≤
          ((JsMap.values protoConstants.AGENT_STATUS).toFinset.card : ℤ) := by
  rw [getStatusSummary_eq]
  have hk : insertionOrder ((JsMap.values protoConstants.AGENT_STATUS).filter
      (fun st => st ≠ "__proto__")) = ["Available"] := by decide
  have hlen : (JsMap.values protoAgents).length = 2 := by decide
  have hcount : countStatus protoAgents "Available" = 1 := by decide
  have hcard : (JsMap.values protoConstants.AGENT_STATUS).toFinset.card = 2 := by decide
  have hp : (["Available"].map fun st =>
      (st, percentage (countStatus protoAgents st) (JsMap.values protoAgents).length)) =
      [("Available", 50)] := by
    rw [List.map_cons, List.map_nil, hcount, hlen, percentage_1_2]
  have hc : (["Available"].map fun st => (st, countStatus protoAgents st)) =
      [("Available", 1)] := by
    rw [List.map_cons, List.map_nil, hcount]
  refine ⟨_, rfl, hlen, by decide, hcard, ?_, ?_, ?_, ?_⟩
  · simp only
    rw [hk, hc]
  · simp only
    rw [hk, hp]
  · simp only
    rw [hk, hp]
    rfl
  · simp only
    rw [hk, hp, hcard]
    decide

/-! ## Dashboard pushes (`sendDashboardUpdate`) -/

/-- The `statusBreakdown` object: for every status but the name `__proto__`, the
number of documents in that status when there is one, and no key otherwise. -/
theorem get_statusBreakdown (docs : List AgentDoc) (st : String) (hst : st ≠ "__proto__") :
    JsMap.get ((groupByStatus docs).foldl
        (fun acc item => JsObject.assign acc item.1 item.2) []) st =
      if 0 < (docs.filter (fun d => d.status = st)).length
      then some (docs.filter (fun d => d.status = st)).length else none := by
  unfold groupByStatus
  rw [List.foldl_map]
  have h := foldl_assign_eq_insertionOrder
    (fun st => (docs.filter (fun d => d.status = st)).length)
    (docs.map (fun d => d.status)).dedup
  simp only at h ⊢
  rw [h, JsMap.get_map_pair]
  have hiff : st ∈ insertionOrder ((docs.map (fun d => d.status)).dedup.filter
      (fun st => st ≠ "__proto__")) ↔ 0 < (docs.filter (fun d => d.status = st)).length := by
    rw [mem_insertionOrder, List.mem_filter, List.mem_dedup, List.mem_map, List.length_pos]
    simp [hst, List.filter_eq_nil_iff]
  by_cases hpos : 0 < (docs.filter (fun d => d.status = st)).length
  · rw [if_pos (hiff.mpr hpos), if_pos hpos]
  · rw [if_neg (fun hm => hpos (hiff.mp hm)), if_neg hpos]

theorem eventsNamed_append (event : String) (l l' : List Emit) :
    eventsNamed event (l ++ l') = eventsNamed event l ++ eventsNamed event l' := by
  unfold eventsNamed
  rw [List.filter_append]

theorem mem_join_self (rooms : List (String × String)) (c room : String) :
    (c, room) ∈ join rooms c room := by
  unfold join
  split_ifs with h
  · exact h
  · simp

theorem mem_join_iff (rooms : List (String × String)) (c room : String)
    (m : String × String) : m ∈ join rooms c room ↔ m ∈ rooms ∨ m = (c, room) := by
  unfold join
  split_ifs with h
  · constructor
    · exact Or.inl
    · rintro (h' | rfl)
      · exact h'
      · exact h
  · simp

/-- C9 as amended: of the socket handlers only `join-dashboard` pushes to the
dashboard.  `agent-login`, `agent-logout`, `disconnect` and
`handleAgentDisconnect` emit no `dashboardUpdate`.  `join-dashboard` leaves the
registry and the collection as they are, adds the membership of the socket in the
room `dashboard` to the memberships there were, and emits exactly one event, a
`dashboardUpdate` to the room `dashboard`, whose statistics hold the number of
active documents, the number of active online documents, their difference, the
clock reading and, for every status but the name `__proto__`, the number of
active online documents in that status when there is one (and no key when there
is none). -/
theorem dashboardUpdate_only_on_join (now : Nat) (c : String) (data : LoginData)
    (s : ServerState) :
    eventsNamed "dashboardUpdate" (agentLogin now c data s).emitted =
      eventsNamed "dashboardUpdate" s.emitted ∧
    eventsNamed "dashboardUpdate" (agentLogout now c s).emitted =
      eventsNamed "dashboardUpdate" s.emitted ∧
    eventsNamed "dashboardUpdate" (disconnect now c s).emitted =
      eventsNamed "dashboardUpdate" s.emitted ∧
    eventsNamed "dashboardUpdate" (handleAgentDisconnect now c s).emitted =
      eventsNamed "dashboardUpdate" s.emitted ∧
    (joinDashboard now c s).connectedClients = s.connectedClients ∧
    (joinDashboard now c s).db = s.db ∧
    (∀ m, m ∈ (joinDashboard now c s).rooms ↔ m ∈ s.rooms ∨ m = (c, "dashboard")) ∧
    ∃ stats, (joinDashboard now c s).emitted = s.emitted ++
        [ { target := .room "dashboard", event := "dashboardUpdate",
            data := .stats stats } ] ∧
      stats.totalAgents = (s.db.filter (fun d => d.isActive)).length ∧
      stats.onlineAgents = (s.db.filter (fun d => d.isActive && d.isOnline)).length ∧
      stats.offlineAgents = ((s.db.filter (fun d => d.isActive)).length : ℤ) -
        (s.db.filter (fun d => d.isActive && d.isOnline)).length ∧
      stats.timestamp = now ∧
      ∀ st, st ≠ "__proto__" →
        JsMap.get stats.statusBreakdown st =
          if 0 < ((s.db.filter (fun d => d.isActive && d.isOnline)).filter
              (fun d => d.status = st)).length
          then some ((s.db.filter (fun d => d.isActive && d.isOnline)).filter
              (fun d => d.status = st)).length
          else none := by
  have hdis : eventsNamed "dashboardUpdate" (handleAgentDisconnect now c s).emitted =
      eventsNamed "dashboardUpdate" s.emitted := by
    cases h : JsMap.get s.connectedClients c with
    | none => rw [handleAgentDisconnect_of_unbound now c s h]
    | some info =>
      rw [handleAgentDisconnect_of_bound now c s info h]
      simp only
      rw [eventsNamed_append]
      simp [eventsNamed]
  refine ⟨?_, ?_, hdis, hdis, rfl, rfl, ?_, ?_⟩
  · cases h : findOne s.db data.agentCode with
    | none =>
      rw [agentLogin_of_not_found now c data s h]
      simp only
      rw [eventsNamed_append]
      simp [eventsNamed]
    | some d =>
      rw [agentLogin_of_found now c data s d h]
      simp only
      rw [eventsNamed_append]
      simp [eventsNamed]
  · unfold agentLogout
    split_ifs
    · exact hdis
    · rfl
  · intro m
    exact mem_join_iff s.rooms c "dashboard" m
  · refine ⟨_, rfl, rfl, rfl, rfl, rfl, ?_⟩
    intro st hst
    exact get_statusBreakdown _ st hst

end Wallboard
